import Mathlib

/-
Verification of the transactional storage core of the snarkVM ledger subsystem:
the in-memory key-value store with atomic batching (spec section 4.1), the
atomic_batch_scope / atomic_finalize composition macros
(src/synthesizer/src/store/helpers/mod.rs), the deployment schema
(src/synthesizer/src/store/transaction/deployment.rs), the execution schema
(src/vm/compiler/src/ledger/store/transaction/execution.rs), and the top-level
transaction dispatch (src/vm/compiler/src/ledger/store/transaction/mod.rs).

Identifiers (`TransactionID`, `TransitionID`, `ProgramID`, function names,
owners, verifying keys, certificates, state roots, proofs) are opaque
byte-addressed values in the source; they are embedded as `Nat`.
-/

namespace SnarkVM

/-- Error kinds, following the spec's error taxonomy (section 7). The source
raises these as `anyhow` string errors; each `bail!` site is mapped to the
kind the spec assigns to it. -/
inductive Err
  | wrongKind
  | malformedInput
  | notFound
  | corrupt
  | backendFault
  | usageViolation
deriving DecidableEq, Repr

/-! ## Association-list primitives

The confirmed contents of a map and the staged operations of a batch are
embedded as lists. `lookupEntries` finds the first binding for a key;
`insertEntry` replaces any existing binding; `eraseEntry` deletes all
bindings for a key. -/

/-- Look up the value bound to a key in an entry list. -/
def lookupEntries {K V : Type} [DecidableEq K] (l : List (K × V)) (k : K) : Option V :=
  (l.find? (fun p => decide (p.1 = k))).map (fun p => p.2)

/-- Bind a key to a value, replacing any previous binding. -/
def insertEntry {K V : Type} [DecidableEq K] (l : List (K × V)) (k : K) (v : V) :
    List (K × V) :=
  (k, v) :: l.filter (fun p => !(decide (p.1 = k)))

/-- Delete every binding for a key. -/
def eraseEntry {K V : Type} [DecidableEq K] (l : List (K × V)) (k : K) : List (K × V) :=
  l.filter (fun p => !(decide (p.1 = k)))

/-- Apply a list of staged batch operations (insert `some v` / remove `none`)
to a confirmed entry list, in order. This is what committing a batch does. -/
def applyOps {K V : Type} [DecidableEq K] (c : List (K × V)) :
    List (K × Option V) → List (K × V)
  | [] => c
  | (k, some v) :: rest => applyOps (insertEntry c k v) rest
  | (k, none) :: rest => applyOps (eraseEntry c k) rest

/-- Apply a list of direct inserts in order (used to describe the effect of
un-batched writes). -/
def insertEntriesList {K V : Type} [DecidableEq K] (c : List (K × V))
    (l : List (K × V)) : List (K × V) :=
  l.foldl (fun c p => insertEntry c p.1 p.2) c

/-- Apply a list of direct erasures in order. -/
def eraseEntriesList {K V : Type} [DecidableEq K] (c : List (K × V))
    (ks : List K) : List (K × V) :=
  ks.foldl (fun c k => eraseEntry c k) c

/-! ## The in-memory map store with the atomic batch protocol

The source's `Map`/`MapRead` traits (src/synthesizer/src/store/helpers/mod.rs)
are implemented by an in-memory backend that is not part of the provided
sources; `Store` is modelled from the spec: section 4.1's MapStore contract
and batch state machine. A store holds its confirmed entries and, when a
batch is open, the staged operations together with a checkpoint stack of
positions into the staged-operation list. -/

/-- A single map store: confirmed state plus an optional open batch
(staged operations, checkpoint positions). Modelled from the spec:
the in-memory MapStore backend of section 4.1. -/
structure Store (K V : Type) where
  confirmed : List (K × V)
  batch : Option (List (K × Option V) × List Nat)
deriving DecidableEq

namespace Store

variable {K V : Type} [DecidableEq K] [DecidableEq V]

/-- The empty store: no confirmed entries, no batch in progress. -/
def empty : Store K V := ⟨[], none⟩

/-- Read a key from the confirmed state (the source's `get_confirmed`; the
older `get` of the vm/compiler `Map` trait reads the same confirmed view). -/
def getConfirmed (s : Store K V) (k : K) : Option V :=
  lookupEntries s.confirmed k

/-- Insert a key-value pair: staged into the batch when one is open,
written directly otherwise (spec section 4.1). -/
def insert (s : Store K V) (k : K) (v : V) : Store K V :=
  match s.batch with
  | none => { s with confirmed := insertEntry s.confirmed k v }
  | some (ops, cps) => { s with batch := some (ops ++ [(k, some v)], cps) }

/-- Remove a key: staged into the batch when one is open, applied directly
otherwise. -/
def remove (s : Store K V) (k : K) : Store K V :=
  match s.batch with
  | none => { s with confirmed := eraseEntry s.confirmed k }
  | some (ops, cps) => { s with batch := some (ops ++ [(k, none)], cps) }

/-- Open a fresh batch (spec: `start_atomic`). -/
def startAtomic (s : Store K V) : Store K V :=
  { s with batch := some ([], []) }

/-- Whether a batch is open (spec: `is_atomic_in_progress`). -/
def isAtomicInProgress (s : Store K V) : Bool :=
  s.batch.isSome

/-- Push the current end-of-batch position onto the checkpoint stack
(spec: `atomic_checkpoint`). -/
def atomicCheckpoint (s : Store K V) : Store K V :=
  match s.batch with
  | none => s
  | some (ops, cps) => { s with batch := some (ops, cps ++ [ops.length]) }

/-- Discard staged operations recorded after the most recent checkpoint,
popping it; with no checkpoint, discard everything staged since
`start_atomic` (spec: `atomic_rewind`). -/
def atomicRewind (s : Store K V) : Store K V :=
  match s.batch with
  | none => s
  | some (ops, cps) =>
    match cps.getLast? with
    | some p => { s with batch := some (ops.take p, cps.dropLast) }
    | none => { s with batch := some ([], []) }

/-- Discard all staged operations and end the batch (spec: `abort_atomic`). -/
def abortAtomic (s : Store K V) : Store K V :=
  { s with batch := none }

/-- Commit all staged operations in order and end the batch
(spec: `finish_atomic`). The in-memory backend cannot fail. -/
def finishAtomic (s : Store K V) : Store K V :=
  { confirmed := applyOps s.confirmed ((s.batch.map (fun b => b.1)).getD []),
    batch := none }

/-- The last staged operation for a key, if the open batch touches it
(spec and source: `get_pending`). -/
def getPending (s : Store K V) (k : K) : Option (Option V) :=
  match s.batch with
  | none => none
  | some (ops, _) => (ops.reverse.find? (fun p => decide (p.1 = k))).map (fun p => p.2)

end Store

/-! ## The default `get_speculative` of the `MapRead` trait

The trait's default method (src/synthesizer/src/store/helpers/mod.rs,
lines 133-150) is defined over the abstract `get_confirmed` and
`get_pending` of the implementor; `MapView` captures exactly that
interface, with `get_confirmed` allowed to fail. -/

/-- An abstract view of a `MapRead` implementor: its confirmed read (which
may report a backend error) and its pending read. -/
structure MapView (K V : Type) where
  getConfirmed : K → Except Err (Option V)
  getPending : K → Option (Option V)

/-- The default `get_speculative` of the `MapRead` trait, translated from
the source: fetch the confirmed value first, returning early on error so
errors are not concealed; then prefer the pending value when one exists. -/
def MapView.getSpeculative {K V : Type} (m : MapView K V) (k : K) :
    Except Err (Option V) :=
  match m.getConfirmed k with
  | .error e => .error e
  | .ok mapValue =>
    match m.getPending k with
    | some (some value) => .ok (some value)
    | some none => .ok none
    | none => .ok mapValue

/-! ## The atomic scope macros

`atomic_batch_scope!` and `atomic_finalize!`
(src/synthesizer/src/store/helpers/mod.rs, lines 177-244) are generic over
the owner `$self`; `AtomicOps` packages the batch-protocol methods the
macros call. A body is a state transformer that always returns the
(possibly mutated) state, plus its `Result`, mirroring in-place mutation in
the source. -/

/-- The batch-protocol interface of an owner, as used by the scope macros. -/
structure AtomicOps (σ : Type) where
  isAtomicInProgress : σ → Bool
  startAtomic : σ → σ
  atomicCheckpoint : σ → σ
  atomicRewind : σ → σ
  abortAtomic : σ → σ
  finishAtomic : σ → σ × Except Err Unit

/-- The `atomic_batch_scope!` macro, translated from the source: record
whether a batch was already in progress; checkpoint if so, else start a
batch; run the body; on `Ok` return the value directly when nested and
commit first when top-level; on `Err` rewind and propagate. -/
def atomicBatchScope {σ α : Type} (ops : AtomicOps σ) (s : σ)
    (body : σ → σ × Except Err α) : σ × Except Err α :=
  let isInProgress := ops.isAtomicInProgress s
  let s1 := match isInProgress with
    | true => ops.atomicCheckpoint s
    | false => ops.startAtomic s
  match body s1 with
  | (s2, .ok result) =>
    match isInProgress with
    | true => (s2, .ok result)
    | false =>
      match ops.finishAtomic s2 with
      | (s3, .ok _) => (s3, .ok result)
      | (s3, .error e) => (s3, .error e)
  | (s2, .error e) => (ops.atomicRewind s2, .error e)

/-- Transcription of the spec's description of `atomic_batch_scope`
(section 4.2): if a batch is already in progress on the owner, call
`atomic_checkpoint` before the body, else call `start_atomic`; on `Ok`,
finish the batch and return the value if we started it, and just return the
value if we only checkpointed; on `Err`, `atomic_rewind` and propagate. -/
def atomicBatchScopeSpec {σ α : Type} (ops : AtomicOps σ) (s : σ)
    (body : σ → σ × Except Err α) : σ × Except Err α :=
  if ops.isAtomicInProgress s then
    match body (ops.atomicCheckpoint s) with
    | (s2, .ok result) => (s2, .ok result)
    | (s2, .error e) => (ops.atomicRewind s2, .error e)
  else
    match body (ops.startAtomic s) with
    | (s2, .ok result) =>
      match ops.finishAtomic s2 with
      | (s3, .ok _) => (s3, .ok result)
      | (s3, .error e) => (s3, .error e)
    | (s2, .error e) => (ops.atomicRewind s2, .error e)

/-- The `atomic_finalize!` macro, translated from the source: bail with a
usage-violation error if a batch is already in progress; otherwise start a
batch, run the body; on `Ok` commit, on `Err` abort and propagate. -/
def atomicFinalize {σ : Type} (ops : AtomicOps σ) (s : σ)
    (body : σ → σ × Except Err Unit) : σ × Except Err Unit :=
  if ops.isAtomicInProgress s then
    (s, .error .usageViolation)
  else
    let s1 := ops.startAtomic s
    match body s1 with
    | (s2, .ok result) =>
      match ops.finishAtomic s2 with
      | (s3, .ok _) => (s3, .ok result)
      | (s3, .error e) => (s3, .error e)
    | (s2, .error e) => (ops.abortAtomic s2, .error e)

/-- Transcription of the spec's description of `atomic_finalize`
(section 4.2): top-level only; if a batch is already in progress, fail
immediately with the usage-violation kind, leaving the state untouched and
never running the body; otherwise `start_atomic`, run the body; on `Ok`,
`finish_atomic` and return; on `Err`, `abort_atomic` and propagate. -/
def atomicFinalizeSpec {σ : Type} (ops : AtomicOps σ) (s : σ)
    (body : σ → σ × Except Err Unit) : σ × Except Err Unit :=
  if ops.isAtomicInProgress s then
    (s, .error .usageViolation)
  else
    match body (ops.startAtomic s) with
    | (s2, .ok _) =>
      match ops.finishAtomic s2 with
      | (s3, .ok _) => (s3, .ok ())
      | (s3, .error e) => (s3, .error e)
    | (s2, .error e) => (ops.abortAtomic s2, .error e)

/-! ## Data model

Transactions, deployments and executions, translated from the source's
variant structure (spec section 3). Opaque identifiers and cryptographic
values are embedded as `Nat`. -/

/-- An opaque transition: its ID and its remaining content. -/
structure Transition where
  tid : Nat
  payload : Nat
deriving DecidableEq, Repr

/-- A program: its ID and its ordered list of function names. -/
structure Program where
  pid : Nat
  functions : List Nat
deriving DecidableEq, Repr

/-- A deployment: an edition, a program, and an ordered association of
function names to (verifying key, certificate) pairs. -/
structure Deployment where
  edition : Nat
  program : Program
  verifyingKeys : List (Nat × Nat × Nat)
deriving DecidableEq, Repr

/-- A fee: a transition plus a global state root and an optional inclusion
proof. -/
structure Fee where
  transition : Transition
  globalStateRoot : Nat
  inclusionProof : Option Nat
deriving DecidableEq, Repr

/-- An execution: an edition and an ordered list of transitions. -/
structure Execution where
  edition : Nat
  transitions : List Transition
deriving DecidableEq, Repr

/-- A transaction: either a deployment (with owner and fee) or an execution
(with optional fee transition). -/
inductive Transaction
  | deploy (txId : Nat) (owner : Nat) (deployment : Deployment) (fee : Fee)
  | execute (txId : Nat) (execution : Execution) (fee : Option Transition)
deriving DecidableEq, Repr

/-- Modelled from the spec: `deployment.check_is_ordered()` is external to
the provided sources; the spec (sections 4.3 and 7) requires it to verify
that the deployment's verifying-key list is ordered consistently with the
program, i.e. that its function names are exactly the program's function
names in order. -/
def Deployment.checkIsOrdered (d : Deployment) : Bool :=
  decide (d.verifyingKeys.map (fun q => q.1) = d.program.functions)

/-- Encode a list of naturals (auxiliary for content-addressed IDs). -/
def encodeList {α : Type} (f : α → Nat) (l : List α) : Nat :=
  l.foldr (fun a n => Nat.pair (f a) n + 1) 0

/-- Encode an optional value (auxiliary for content-addressed IDs). -/
def encodeOption {α : Type} (f : α → Nat) : Option α → Nat
  | none => 0
  | some a => f a + 1

/-- Content encoding of a transition. -/
def Transition.encode (t : Transition) : Nat :=
  Nat.pair t.tid t.payload

/-- Content encoding of a program. -/
def Program.encode (p : Program) : Nat :=
  Nat.pair p.pid (encodeList (fun n => n) p.functions)

/-- Content encoding of a deployment. -/
def Deployment.encode (d : Deployment) : Nat :=
  Nat.pair d.edition (Nat.pair d.program.encode
    (encodeList (fun q => Nat.pair q.1 (Nat.pair q.2.1 q.2.2)) d.verifyingKeys))

/-- Content encoding of a fee. -/
def Fee.encode (f : Fee) : Nat :=
  Nat.pair f.transition.encode
    (Nat.pair f.globalStateRoot (encodeOption (fun n => n) f.inclusionProof))

/-- Content encoding of an execution. -/
def Execution.encode (e : Execution) : Nat :=
  Nat.pair e.edition (encodeList Transition.encode e.transitions)

/-- Modelled from the spec: transaction IDs are deterministic
content-addressed values (spec sections 1 and 3); the ID of a deployment
transaction is computed from its owner, deployment and fee. -/
def deployTxId (owner : Nat) (d : Deployment) (fee : Fee) : Nat :=
  Nat.pair 0 (Nat.pair owner (Nat.pair d.encode fee.encode))

/-- Modelled from the spec: the ID of an execution transaction is computed
from its execution and optional fee transition. -/
def executeTxId (e : Execution) (fee : Option Transition) : Nat :=
  Nat.pair 1 (Nat.pair e.encode (encodeOption Transition.encode fee))

/-- The ID carried by a transaction (the source's `Transaction::id()`). -/
def Transaction.id : Transaction → Nat
  | .deploy txId _ _ _ => txId
  | .execute txId _ _ => txId

/-- The source's `Transaction::from_deployment`: reconstruct a deployment
transaction, recomputing its content-addressed ID. -/
def Transaction.fromDeployment (owner : Nat) (d : Deployment) (fee : Fee) : Transaction :=
  .deploy (deployTxId owner d fee) owner d fee

/-- The source's `Transaction::from_execution`: reconstruct an execution
transaction, recomputing its content-addressed ID. -/
def Transaction.fromExecution (e : Execution) (fee : Option Transition) : Transaction :=
  .execute (executeTxId e fee) e fee

/-- The kind tag stored in the top-level map (the source's
`TransactionType`). -/
inductive TxKind
  | deploy
  | execute
deriving DecidableEq, Repr

/-- The kind of a transaction. -/
def Transaction.kind : Transaction → TxKind
  | .deploy _ _ _ _ => .deploy
  | .execute _ _ _ => .execute

/-- A valid transaction: its stored ID is the content-addressed ID of its
payload, a deployment's verifying keys are ordered against a program with
distinct function names, and an execution's transition IDs (fee included)
are distinct. -/
def Transaction.valid : Transaction → Prop
  | .deploy txId owner d fee =>
    txId = deployTxId owner d fee ∧ d.checkIsOrdered = true ∧ d.program.functions.Nodup
  | .execute txId e fee =>
    txId = executeTxId e fee ∧
      ((e.transitions ++ fee.toList).map (fun t => t.tid)).Nodup

instance : DecidablePred Transaction.valid := by
  intro tx
  cases tx <;> simp only [Transaction.valid] <;> infer_instance

/-! ## The transition store

The `TransitionStore` is an external collaborator (spec sections 1 and 6):
it stores transitions keyed by their IDs and participates in the batch
protocol. Modelled from the spec; per the spec's `BackendIO` error kind
(section 7) its insert may report a backend write fault, injected here by
a list of failing transition IDs. -/

/-- Modelled from the spec: the external transition store (sections 1, 6
and 7) - a batched map from transition IDs to transitions, whose insert
reports a backend fault for the IDs listed in `failInsert`. -/
structure TransitionStoreState where
  store : Store Nat Transition
  failInsert : List Nat
deriving DecidableEq

namespace TransitionStoreState

/-- The empty transition store with no injected faults. -/
def empty : TransitionStoreState := ⟨Store.empty, []⟩

/-- Insert a transition, keyed by its ID; fails with a backend fault for
IDs in the injected fault list. -/
def insertT (s : TransitionStoreState) (t : Transition) :
    TransitionStoreState × Except Err Unit :=
  if t.tid ∈ s.failInsert then (s, .error .backendFault)
  else ({ s with store := s.store.insert t.tid t }, .ok ())

/-- Remove the transition with the given ID. -/
def removeT (s : TransitionStoreState) (transitionId : Nat) : TransitionStoreState :=
  { s with store := s.store.remove transitionId }

/-- Fetch the transition with the given ID (confirmed view). -/
def getTransition (s : TransitionStoreState) (transitionId : Nat) : Option Transition :=
  s.store.getConfirmed transitionId

/-- Batch protocol passthrough: open a batch. -/
def startAtomicT (s : TransitionStoreState) : TransitionStoreState :=
  { s with store := s.store.startAtomic }

/-- Batch protocol passthrough: whether a batch is open. -/
def isAtomicInProgressT (s : TransitionStoreState) : Bool :=
  s.store.isAtomicInProgress

/-- Batch protocol passthrough: checkpoint. -/
def atomicCheckpointT (s : TransitionStoreState) : TransitionStoreState :=
  { s with store := s.store.atomicCheckpoint }

/-- Batch protocol passthrough: rewind. -/
def atomicRewindT (s : TransitionStoreState) : TransitionStoreState :=
  { s with store := s.store.atomicRewind }

/-- Batch protocol passthrough: abort. -/
def abortAtomicT (s : TransitionStoreState) : TransitionStoreState :=
  { s with store := s.store.abortAtomic }

/-- Batch protocol passthrough: commit. -/
def finishAtomicT (s : TransitionStoreState) : TransitionStoreState :=
  { s with store := s.store.finishAtomic }

end TransitionStoreState

/-! ## Observed write operations

A ghost log of the writes and batch-control calls a schema issues, used to
state staging-order and batching claims. Each schema helper appends one
entry; the log has no effect on behavior. -/

/-- One observed operation: a write to a named map (`some v` for insert,
`none` for remove) or a schema-level batch-control call. -/
inductive WOp
  | depId (k : Nat) (v : Option Nat)
  | depEdition (k : Nat) (v : Option Nat)
  | depReverseId (k : Nat × Nat) (v : Option Nat)
  | depOwner (k : Nat × Nat) (v : Option Nat)
  | depProgram (k : Nat × Nat) (v : Option Program)
  | depVerifyingKey (k : Nat × Nat × Nat) (v : Option Nat)
  | depCertificate (k : Nat × Nat × Nat) (v : Option Nat)
  | depFee (k : Nat) (v : Option (Nat × Nat × Option Nat))
  | depReverseFee (k : Nat) (v : Option Nat)
  | execId (k : Nat) (v : Option (List Nat × Option Nat))
  | execReverseId (k : Nat) (v : Option Nat)
  | execEdition (k : Nat) (v : Option Nat)
  | transition (k : Nat) (v : Option Transition)
  | startAtomic
  | checkpoint
  | rewind
  | abort
  | finishAtomic
deriving DecidableEq, Repr

/-- Whether an observed operation is a batch-control call rather than a
map write. -/
def WOp.isBatchControl : WOp → Bool
  | .startAtomic => true
  | .checkpoint => true
  | .rewind => true
  | .abort => true
  | .finishAtomic => true
  | _ => false

/-! ## The deployment schema

Translated from `DeploymentStorage`
(src/synthesizer/src/store/transaction/deployment.rs): nine maps plus the
transition store, batch-protocol fan-out over all participants in declared
order, and the insert/remove/read algorithms. -/

/-- The deployment schema state: nine maps, the transition store, and the
ghost log of observed operations. -/
structure DeploymentState where
  idMap : Store Nat Nat
  editionMap : Store Nat Nat
  reverseIdMap : Store (Nat × Nat) Nat
  ownerMap : Store (Nat × Nat) Nat
  programMap : Store (Nat × Nat) Program
  verifyingKeyMap : Store (Nat × Nat × Nat) Nat
  certificateMap : Store (Nat × Nat × Nat) Nat
  feeMap : Store Nat (Nat × Nat × Option Nat)
  reverseFeeMap : Store Nat Nat
  transitionStore : TransitionStoreState
  log : List WOp
deriving DecidableEq

namespace DeploymentState

/-- The empty deployment schema. -/
def empty : DeploymentState :=
  ⟨Store.empty, Store.empty, Store.empty, Store.empty, Store.empty,
    Store.empty, Store.empty, Store.empty, Store.empty,
    TransitionStoreState.empty, []⟩

/-- Write to the ID map (`id_map().insert`). -/
def insertId (s : DeploymentState) (k : Nat) (v : Nat) : DeploymentState :=
  { s with idMap := s.idMap.insert k v, log := s.log ++ [WOp.depId k (some v)] }

/-- Write to the edition map. -/
def insertEdition (s : DeploymentState) (k : Nat) (v : Nat) : DeploymentState :=
  { s with
    editionMap := s.editionMap.insert k v,
    log := s.log ++ [WOp.depEdition k (some v)] }

/-- Write to the reverse ID map. -/
def insertReverseId (s : DeploymentState) (k : Nat × Nat) (v : Nat) : DeploymentState :=
  { s with
    reverseIdMap := s.reverseIdMap.insert k v,
    log := s.log ++ [WOp.depReverseId k (some v)] }

/-- Write to the owner map. -/
def insertOwner (s : DeploymentState) (k : Nat × Nat) (v : Nat) : DeploymentState :=
  { s with
    ownerMap := s.ownerMap.insert k v,
    log := s.log ++ [WOp.depOwner k (some v)] }

/-- Write to the program map. -/
def insertProgram (s : DeploymentState) (k : Nat × Nat) (v : Program) : DeploymentState :=
  { s with
    programMap := s.programMap.insert k v,
    log := s.log ++ [WOp.depProgram k (some v)] }

/-- Write to the verifying-key map. -/
def insertVerifyingKey (s : DeploymentState) (k : Nat × Nat × Nat) (v : Nat) :
    DeploymentState :=
  { s with
    verifyingKeyMap := s.verifyingKeyMap.insert k v,
    log := s.log ++ [WOp.depVerifyingKey k (some v)] }

/-- Write to the certificate map. -/
def insertCertificate (s : DeploymentState) (k : Nat × Nat × Nat) (v : Nat) :
    DeploymentState :=
  { s with
    certificateMap := s.certificateMap.insert k v,
    log := s.log ++ [WOp.depCertificate k (some v)] }

/-- Write to the fee map. -/
def insertFee (s : DeploymentState) (k : Nat) (v : Nat × Nat × Option Nat) :
    DeploymentState :=
  { s with feeMap := s.feeMap.insert k v, log := s.log ++ [WOp.depFee k (some v)] }

/-- Write to the reverse fee map. -/
def insertReverseFee (s : DeploymentState) (k : Nat) (v : Nat) : DeploymentState :=
  { s with
    reverseFeeMap := s.reverseFeeMap.insert k v,
    log := s.log ++ [WOp.depReverseFee k (some v)] }

/-- Insert the fee transition into the transition store
(`transition_store().insert(fee)`); propagates a backend fault. -/
def insertTransition (s : DeploymentState) (t : Transition) :
    DeploymentState × Except Err Unit :=
  match s.transitionStore.insertT t with
  | (ts, .ok _) =>
    ({ s with
       transitionStore := ts,
       log := s.log ++ [WOp.transition t.tid (some t)] }, .ok ())
  | (ts, .error e) => ({ s with transitionStore := ts }, .error e)

/-- Remove from the ID map. -/
def removeId (s : DeploymentState) (k : Nat) : DeploymentState :=
  { s with idMap := s.idMap.remove k, log := s.log ++ [WOp.depId k none] }

/-- Remove from the edition map. -/
def removeEdition (s : DeploymentState) (k : Nat) : DeploymentState :=
  { s with editionMap := s.editionMap.remove k, log := s.log ++ [WOp.depEdition k none] }

/-- Remove from the reverse ID map. -/
def removeReverseId (s : DeploymentState) (k : Nat × Nat) : DeploymentState :=
  { s with
    reverseIdMap := s.reverseIdMap.remove k,
    log := s.log ++ [WOp.depReverseId k none] }

/-- Remove from the owner map. -/
def removeOwner (s : DeploymentState) (k : Nat × Nat) : DeploymentState :=
  { s with ownerMap := s.ownerMap.remove k, log := s.log ++ [WOp.depOwner k none] }

/-- Remove from the program map. -/
def removeProgram (s : DeploymentState) (k : Nat × Nat) : DeploymentState :=
  { s with programMap := s.programMap.remove k, log := s.log ++ [WOp.depProgram k none] }

/-- Remove from the verifying-key map. -/
def removeVerifyingKey (s : DeploymentState) (k : Nat × Nat × Nat) : DeploymentState :=
  { s with
    verifyingKeyMap := s.verifyingKeyMap.remove k,
    log := s.log ++ [WOp.depVerifyingKey k none] }

/-- Remove from the certificate map. -/
def removeCertificate (s : DeploymentState) (k : Nat × Nat × Nat) : DeploymentState :=
  { s with
    certificateMap := s.certificateMap.remove k,
    log := s.log ++ [WOp.depCertificate k none] }

/-- Remove from the fee map. -/
def removeFee (s : DeploymentState) (k : Nat) : DeploymentState :=
  { s with feeMap := s.feeMap.remove k, log := s.log ++ [WOp.depFee k none] }

/-- Remove from the reverse fee map. -/
def removeReverseFee (s : DeploymentState) (k : Nat) : DeploymentState :=
  { s with
    reverseFeeMap := s.reverseFeeMap.remove k,
    log := s.log ++ [WOp.depReverseFee k none] }

/-- Remove the fee transition from the transition store. -/
def removeTransition (s : DeploymentState) (transitionId : Nat) : DeploymentState :=
  { s with
    transitionStore := s.transitionStore.removeT transitionId,
    log := s.log ++ [WOp.transition transitionId none] }

/-- Batch fan-out: start a batch on all ten participants in declared order
(source lines 94-105). -/
def startAtomicD (s : DeploymentState) : DeploymentState :=
  { idMap := s.idMap.startAtomic, editionMap := s.editionMap.startAtomic,
    reverseIdMap := s.reverseIdMap.startAtomic, ownerMap := s.ownerMap.startAtomic,
    programMap := s.programMap.startAtomic,
    verifyingKeyMap := s.verifyingKeyMap.startAtomic,
    certificateMap := s.certificateMap.startAtomic, feeMap := s.feeMap.startAtomic,
    reverseFeeMap := s.reverseFeeMap.startAtomic,
    transitionStore := s.transitionStore.startAtomicT,
    log := s.log ++ [WOp.startAtomic] }

/-- Batch fan-out: a batch is in progress if it is on any participant
(source lines 108-119). -/
def isAtomicInProgressD (s : DeploymentState) : Bool :=
  s.idMap.isAtomicInProgress || s.editionMap.isAtomicInProgress ||
    s.reverseIdMap.isAtomicInProgress || s.ownerMap.isAtomicInProgress ||
    s.programMap.isAtomicInProgress || s.verifyingKeyMap.isAtomicInProgress ||
    s.certificateMap.isAtomicInProgress || s.feeMap.isAtomicInProgress ||
    s.reverseFeeMap.isAtomicInProgress || s.transitionStore.isAtomicInProgressT

/-- Batch fan-out: checkpoint all participants (source lines 122-133). -/
def atomicCheckpointD (s : DeploymentState) : DeploymentState :=
  { idMap := s.idMap.atomicCheckpoint, editionMap := s.editionMap.atomicCheckpoint,
    reverseIdMap := s.reverseIdMap.atomicCheckpoint,
    ownerMap := s.ownerMap.atomicCheckpoint, programMap := s.programMap.atomicCheckpoint,
    verifyingKeyMap := s.verifyingKeyMap.atomicCheckpoint,
    certificateMap := s.certificateMap.atomicCheckpoint,
    feeMap := s.feeMap.atomicCheckpoint, reverseFeeMap := s.reverseFeeMap.atomicCheckpoint,
    transitionStore := s.transitionStore.atomicCheckpointT,
    log := s.log ++ [WOp.checkpoint] }

/-- Batch fan-out: rewind all participants (source lines 136-147). -/
def atomicRewindD (s : DeploymentState) : DeploymentState :=
  { idMap := s.idMap.atomicRewind, editionMap := s.editionMap.atomicRewind,
    reverseIdMap := s.reverseIdMap.atomicRewind, ownerMap := s.ownerMap.atomicRewind,
    programMap := s.programMap.atomicRewind,
    verifyingKeyMap := s.verifyingKeyMap.atomicRewind,
    certificateMap := s.certificateMap.atomicRewind, feeMap := s.feeMap.atomicRewind,
    reverseFeeMap := s.reverseFeeMap.atomicRewind,
    transitionStore := s.transitionStore.atomicRewindT,
    log := s.log ++ [WOp.rewind] }

/-- Batch fan-out: abort all participants (source lines 150-161). -/
def abortAtomicD (s : DeploymentState) : DeploymentState :=
  { idMap := s.idMap.abortAtomic, editionMap := s.editionMap.abortAtomic,
    reverseIdMap := s.reverseIdMap.abortAtomic, ownerMap := s.ownerMap.abortAtomic,
    programMap := s.programMap.abortAtomic,
    verifyingKeyMap := s.verifyingKeyMap.abortAtomic,
    certificateMap := s.certificateMap.abortAtomic, feeMap := s.feeMap.abortAtomic,
    reverseFeeMap := s.reverseFeeMap.abortAtomic,
    transitionStore := s.transitionStore.abortAtomicT,
    log := s.log ++ [WOp.abort] }

/-- Batch fan-out: commit all participants in declared order (source lines
164-175); the in-memory participants cannot fail. -/
def finishAtomicD (s : DeploymentState) : DeploymentState × Except Err Unit :=
  ({ idMap := s.idMap.finishAtomic, editionMap := s.editionMap.finishAtomic,
     reverseIdMap := s.reverseIdMap.finishAtomic, ownerMap := s.ownerMap.finishAtomic,
     programMap := s.programMap.finishAtomic,
     verifyingKeyMap := s.verifyingKeyMap.finishAtomic,
     certificateMap := s.certificateMap.finishAtomic, feeMap := s.feeMap.finishAtomic,
     reverseFeeMap := s.reverseFeeMap.finishAtomic,
     transitionStore := s.transitionStore.finishAtomicT,
     log := s.log ++ [WOp.finishAtomic] }, .ok ())

end DeploymentState

/-- The batch-protocol interface of the deployment schema, as passed to the
scope macros. -/
def depAtomicOps : AtomicOps DeploymentState :=
  { isAtomicInProgress := DeploymentState.isAtomicInProgressD,
    startAtomic := DeploymentState.startAtomicD,
    atomicCheckpoint := DeploymentState.atomicCheckpointD,
    atomicRewind := DeploymentState.atomicRewindD,
    abortAtomic := DeploymentState.abortAtomicD,
    finishAtomic := DeploymentState.finishAtomicD }

namespace DeploymentState

/-- The verifying-key/certificate storing loop of `DeploymentStorage::insert`
(source lines 213-218). -/
def insertVerifyingKeysLoop (programId edition : Nat) :
    List (Nat × Nat × Nat) → DeploymentState → DeploymentState
  | [], s => s
  | q :: rest, s =>
    insertVerifyingKeysLoop programId edition rest
      ((s.insertVerifyingKey (programId, q.1, edition) q.2.1).insertCertificate
        (programId, q.1, edition) q.2.2)

/-- The body staged by `DeploymentStorage::insert` under its
`atomic_batch_scope` (source lines 199-231). -/
def insertBody (txId owner : Nat) (d : Deployment) (fee : Fee)
    (s : DeploymentState) : DeploymentState × Except Err Unit :=
  let edition := d.edition
  let program := d.program
  let programId := program.pid
  let s := s.insertId txId programId
  let s := s.insertEdition programId edition
  let s := s.insertReverseId (programId, edition) txId
  let s := s.insertOwner (programId, edition) owner
  let s := s.insertProgram (programId, edition) program
  let s := insertVerifyingKeysLoop programId edition d.verifyingKeys s
  let s := s.insertFee txId (fee.transition.tid, fee.globalStateRoot, fee.inclusionProof)
  let s := s.insertReverseFee fee.transition.tid txId
  s.insertTransition fee.transition

/-- The source's `DeploymentStorage::insert` (lines 178-232): reject
non-deployment transactions, reject unordered deployments, then stage all
writes under one `atomic_batch_scope`. -/
def insert (s : DeploymentState) (tx : Transaction) : DeploymentState × Except Err Unit :=
  match tx with
  | .execute _ _ _ => (s, .error .wrongKind)
  | .deploy txId owner d fee =>
    if d.checkIsOrdered then
      atomicBatchScope depAtomicOps s (insertBody txId owner d fee)
    else (s, .error .malformedInput)

/-- The source's `get_program_id` (lines 315-321): confirmed read of the ID
map. -/
def getProgramId (s : DeploymentState) (txId : Nat) : Option Nat :=
  s.idMap.getConfirmed txId

/-- The source's `get_edition` (lines 324-329): confirmed read of the
edition map. -/
def getEditionP (s : DeploymentState) (programId : Nat) : Option Nat :=
  s.editionMap.getConfirmed programId

/-- The verifying-key/certificate removal loop of `DeploymentStorage::remove`
(source lines 271-276). -/
def removeVerifyingKeysLoop (programId edition : Nat) :
    List Nat → DeploymentState → DeploymentState
  | [], s => s
  | fn :: rest, s =>
    removeVerifyingKeysLoop programId edition rest
      ((s.removeVerifyingKey (programId, fn, edition)).removeCertificate
        (programId, fn, edition))

/-- The body staged by `DeploymentStorage::remove` under its
`atomic_batch_scope` (source lines 257-286). -/
def removeBody (txId programId edition : Nat) (program : Program)
    (feeTransitionId : Nat) (s : DeploymentState) : DeploymentState × Except Err Unit :=
  let s := s.removeId txId
  let s := s.removeEdition programId
  let s := s.removeReverseId (programId, edition)
  let s := s.removeOwner (programId, edition)
  let s := s.removeProgram (programId, edition)
  let s := removeVerifyingKeysLoop programId edition program.functions s
  let s := s.removeFee txId
  let s := s.removeReverseFee feeTransitionId
  (s.removeTransition feeTransitionId, .ok ())

/-- The source's `DeploymentStorage::remove` (lines 235-287): four leading
confirmed lookups (absent primary entry is not-found; any other absent
entry is corruption), then all removals under one `atomic_batch_scope`. -/
def remove (s : DeploymentState) (txId : Nat) : DeploymentState × Except Err Unit :=
  match s.getProgramId txId with
  | none => (s, .error .notFound)
  | some programId =>
    match s.getEditionP programId with
    | none => (s, .error .corrupt)
    | some edition =>
      match s.programMap.getConfirmed (programId, edition) with
      | none => (s, .error .corrupt)
      | some program =>
        match s.feeMap.getConfirmed txId with
        | none => (s, .error .corrupt)
        | some (feeTransitionId, _, _) =>
          atomicBatchScope depAtomicOps s
            (removeBody txId programId edition program feeTransitionId)

/-- The verifying-key/certificate collection loop of `get_deployment`
(source lines 399-416). -/
def collectVerifyingKeys (s : DeploymentState) (programId edition : Nat) :
    List Nat → Except Err (List (Nat × Nat × Nat))
  | [] => .ok []
  | fn :: rest =>
    match s.verifyingKeyMap.getConfirmed (programId, fn, edition) with
    | none => .error .corrupt
    | some vk =>
      match s.certificateMap.getConfirmed (programId, fn, edition) with
      | none => .error .corrupt
      | some cert =>
        match s.collectVerifyingKeys programId edition rest with
        | .ok l => .ok ((fn, vk, cert) :: l)
        | .error e => .error e

/-- The source's `get_deployment` (lines 382-420): absent primary entry
short-circuits to none; any later absent entry is corruption. -/
def getDeployment (s : DeploymentState) (txId : Nat) : Except Err (Option Deployment) :=
  match s.getProgramId txId with
  | none => .ok none
  | some programId =>
    match s.getEditionP programId with
    | none => .error .corrupt
    | some edition =>
      match s.programMap.getConfirmed (programId, edition) with
      | none => .error .corrupt
      | some program =>
        match s.collectVerifyingKeys programId edition program.functions with
        | .ok vks => .ok (some ⟨edition, program, vks⟩)
        | .error e => .error e

/-- The source's `get_fee` (lines 423-435). -/
def getFee (s : DeploymentState) (txId : Nat) : Except Err (Option Fee) :=
  match s.feeMap.getConfirmed txId with
  | none => .ok none
  | some (feeTransitionId, globalStateRoot, inclusionProof) =>
    match s.transitionStore.getTransition feeTransitionId with
    | some t => .ok (some ⟨t, globalStateRoot, inclusionProof⟩)
    | none => .error .corrupt

/-- The source's `get_owner` (lines 438-451). -/
def getOwner (s : DeploymentState) (programId : Nat) : Except Err (Option Nat) :=
  match s.getEditionP programId with
  | none => .ok none
  | some edition =>
    match s.ownerMap.getConfirmed (programId, edition) with
    | some o => .ok (some o)
    | none => .error .corrupt

/-- The source's deployment `get_transaction` (lines 454-479): reconstruct
the transaction and verify its recomputed ID against the key. -/
def getTransaction (s : DeploymentState) (txId : Nat) : Except Err (Option Transaction) :=
  match s.getDeployment txId with
  | .error e => .error e
  | .ok none => .ok none
  | .ok (some d) =>
    match s.getFee txId with
    | .error e => .error e
    | .ok none => .error .corrupt
    | .ok (some fee) =>
      match s.getOwner d.program.pid with
      | .error e => .error e
      | .ok none => .error .corrupt
      | .ok (some owner) =>
        let dtx := Transaction.fromDeployment owner d fee
        if txId = dtx.id then .ok (some dtx) else .error .corrupt

/-- Modelled from the spec: the vm/compiler deployment store's
`get_additional_fee` is not among the provided sources; per the spec's fee
linkage (section 3) and the glossary, it returns the fee transition
recorded for the transaction. -/
def getAdditionalFee (s : DeploymentState) (txId : Nat) : Except Err (Option Transition) :=
  match s.feeMap.getConfirmed txId with
  | none => .ok none
  | some (feeTransitionId, _, _) =>
    match s.transitionStore.getTransition feeTransitionId with
    | some t => .ok (some t)
    | none => .error .corrupt

end DeploymentState

/-! ## The execution schema

Translated from `ExecutionStorage`
(src/vm/compiler/src/ledger/store/transaction/execution.rs): three maps
plus the transition store. Unlike the deployment schema, its insert and
remove issue writes directly, with no atomic scope of their own. -/

/-- The execution schema state: three maps, the transition store, and the
ghost log of observed operations. -/
structure ExecutionState where
  idMap : Store Nat (List Nat × Option Nat)
  reverseIdMap : Store Nat Nat
  editionMap : Store Nat Nat
  transitionStore : TransitionStoreState
  log : List WOp
deriving DecidableEq

namespace ExecutionState

/-- The empty execution schema. -/
def empty : ExecutionState :=
  ⟨Store.empty, Store.empty, Store.empty, TransitionStoreState.empty, []⟩

/-- Write to the ID map. -/
def insertIdE (s : ExecutionState) (k : Nat) (v : List Nat × Option Nat) :
    ExecutionState :=
  { s with idMap := s.idMap.insert k v, log := s.log ++ [WOp.execId k (some v)] }

/-- Write to the reverse ID map. -/
def insertReverseIdE (s : ExecutionState) (k : Nat) (v : Nat) : ExecutionState :=
  { s with
    reverseIdMap := s.reverseIdMap.insert k v,
    log := s.log ++ [WOp.execReverseId k (some v)] }

/-- Write to the edition map. -/
def insertEditionE (s : ExecutionState) (k : Nat) (v : Nat) : ExecutionState :=
  { s with
    editionMap := s.editionMap.insert k v,
    log := s.log ++ [WOp.execEdition k (some v)] }

/-- Insert a transition into the transition store; propagates a backend
fault. -/
def insertTransitionE (s : ExecutionState) (t : Transition) :
    ExecutionState × Except Err Unit :=
  match s.transitionStore.insertT t with
  | (ts, .ok _) =>
    ({ s with
       transitionStore := ts,
       log := s.log ++ [WOp.transition t.tid (some t)] }, .ok ())
  | (ts, .error e) => ({ s with transitionStore := ts }, .error e)

/-- Remove from the ID map. -/
def removeIdE (s : ExecutionState) (k : Nat) : ExecutionState :=
  { s with idMap := s.idMap.remove k, log := s.log ++ [WOp.execId k none] }

/-- Remove from the reverse ID map. -/
def removeReverseIdE (s : ExecutionState) (k : Nat) : ExecutionState :=
  { s with
    reverseIdMap := s.reverseIdMap.remove k,
    log := s.log ++ [WOp.execReverseId k none] }

/-- Remove from the edition map. -/
def removeEditionE (s : ExecutionState) (k : Nat) : ExecutionState :=
  { s with
    editionMap := s.editionMap.remove k,
    log := s.log ++ [WOp.execEdition k none] }

/-- Remove a transition from the transition store. -/
def removeTransitionE (s : ExecutionState) (transitionId : Nat) : ExecutionState :=
  { s with
    transitionStore := s.transitionStore.removeT transitionId,
    log := s.log ++ [WOp.transition transitionId none] }

/-- The per-transition loop of `ExecutionStorage::insert` (source lines
170-175): store the reverse ID, then the transition, short-circuiting on a
store fault. -/
def insertTransitionsLoop (txId : Nat) :
    List Transition → ExecutionState → ExecutionState × Except Err Unit
  | [], s => (s, .ok ())
  | t :: rest, s =>
    let s1 := s.insertReverseIdE t.tid txId
    match s1.insertTransitionE t with
    | (s2, .ok _) => insertTransitionsLoop txId rest s2
    | (s2, .error e) => (s2, .error e)

/-- The source's `ExecutionStorage::insert` (lines 141-186): reject
non-execution transactions, then write the ID tuple, the edition, every
transition with its reverse entry, and the optional fee transition with its
reverse entry - all directly, with no atomic scope of its own. -/
def insert (s : ExecutionState) (tx : Transaction) : ExecutionState × Except Err Unit :=
  match tx with
  | .deploy _ _ _ _ => (s, .error .wrongKind)
  | .execute txId e optFee =>
    let edition := e.edition
    let transitions := e.transitions
    let transitionIds := transitions.map (fun t => t.tid)
    let optFeeId := optFee.map (fun t => t.tid)
    let s1 := s.insertIdE txId (transitionIds, optFeeId)
    let s2 := s1.insertEditionE txId edition
    match insertTransitionsLoop txId transitions s2 with
    | (s3, .error e) => (s3, .error e)
    | (s3, .ok _) =>
      match optFee with
      | some feeT =>
        let s4 := s3.insertReverseIdE feeT.tid txId
        s4.insertTransitionE feeT
      | none => (s3, .ok ())

/-- The per-transition loop of `ExecutionStorage::remove` (source lines
202-207). -/
def removeTransitionsLoop : List Nat → ExecutionState → ExecutionState
  | [], s => s
  | transitionId :: rest, s =>
    removeTransitionsLoop rest
      ((s.removeReverseIdE transitionId).removeTransitionE transitionId)

/-- The source's `ExecutionStorage::remove` (lines 189-218): absent primary
entry is not-found; otherwise remove the ID tuple, the edition, every
recorded transition with its reverse entry, and the optional fee - all
directly, with no atomic scope of its own. -/
def remove (s : ExecutionState) (txId : Nat) : ExecutionState × Except Err Unit :=
  match s.idMap.getConfirmed txId with
  | none => (s, .error .notFound)
  | some (transitionIds, optFeeId) =>
    let s1 := s.removeIdE txId
    let s2 := s1.removeEditionE txId
    let s3 := removeTransitionsLoop transitionIds s2
    match optFeeId with
    | some feeId =>
      ((s3.removeReverseIdE feeId).removeTransitionE feeId, .ok ())
    | none => (s3, .ok ())

/-- The source's `find_transaction_id` (lines 55-60): confirmed read of the
reverse ID map. -/
def findTransactionId (s : ExecutionState) (transitionId : Nat) : Except Err (Option Nat) :=
  .ok (s.reverseIdMap.getConfirmed transitionId)

/-- The transition collection loop of `get_execution`/`get_transaction`
(source lines 109-114): each recorded transition must exist. -/
def collectTransitions (s : ExecutionState) : List Nat → Except Err (List Transition)
  | [] => .ok []
  | transitionId :: rest =>
    match s.transitionStore.getTransition transitionId with
    | none => .error .corrupt
    | some t =>
      match s.collectTransitions rest with
      | .ok l => .ok (t :: l)
      | .error e => .error e

/-- The source's `get_execution` (lines 63-89). -/
def getExecution (s : ExecutionState) (txId : Nat) : Except Err (Option Execution) :=
  match s.editionMap.getConfirmed txId with
  | none => .ok none
  | some edition =>
    match s.idMap.getConfirmed txId with
    | none => .error .corrupt
    | some (transitionIds, _) =>
      match s.collectTransitions transitionIds with
      | .error e => .error e
      | .ok transitions => .ok (some ⟨edition, transitions⟩)

/-- The source's execution `get_transaction` (lines 92-138): reconstruct
the transaction and verify its recomputed ID against the key. -/
def getTransaction (s : ExecutionState) (txId : Nat) : Except Err (Option Transaction) :=
  match s.editionMap.getConfirmed txId with
  | none => .ok none
  | some edition =>
    match s.idMap.getConfirmed txId with
    | none => .error .corrupt
    | some (transitionIds, optFeeId) =>
      match s.collectTransitions transitionIds with
      | .error e => .error e
      | .ok transitions =>
        let execution : Execution := ⟨edition, transitions⟩
        match optFeeId with
        | some feeId =>
          match s.transitionStore.getTransition feeId with
          | none => .error .corrupt
          | some feeT =>
            let tx := Transaction.fromExecution execution (some feeT)
            if txId = tx.id then .ok (some tx) else .error .corrupt
        | none =>
          let tx := Transaction.fromExecution execution none
          if txId = tx.id then .ok (some tx) else .error .corrupt

/-- The source's `ExecutionStore::get_edition` (lines 314-319). -/
def getEdition (s : ExecutionState) (txId : Nat) : Except Err (Option Nat) :=
  .ok (s.editionMap.getConfirmed txId)

/-- The source's `ExecutionStore::get_additional_fee` (lines 322-340). -/
def getAdditionalFee (s : ExecutionState) (txId : Nat) : Except Err (Option Transition) :=
  match s.idMap.getConfirmed txId with
  | none => .error .corrupt
  | some (_, optFeeId) =>
    match optFeeId with
    | some feeId =>
      match s.transitionStore.getTransition feeId with
      | some t => .ok (some t)
      | none => .error .corrupt
    | none => .ok none

end ExecutionState

/-! ## The top-level transaction schema

Translated from `TransactionStorage` and `TransactionStore`
(src/vm/compiler/src/ledger/store/transaction/mod.rs): the kind-tag map
plus the two sub-schemas. -/

/-- The top-level transaction storage: the kind-tag map and the two
sub-schemas. -/
structure TransactionState where
  kindMap : Store Nat TxKind
  deployment : DeploymentState
  execution : ExecutionState
deriving DecidableEq

namespace TransactionState

/-- The empty top-level storage. -/
def empty : TransactionState :=
  ⟨Store.empty, DeploymentState.empty, ExecutionState.empty⟩

/-- The source's `TransactionStorage::insert` (lines 89-104): write the
kind tag, then forward to the matching sub-schema. -/
def insert (s : TransactionState) (tx : Transaction) : TransactionState × Except Err Unit :=
  match tx with
  | .deploy _ _ _ _ =>
    let s1 := { s with kindMap := s.kindMap.insert tx.id TxKind.deploy }
    match s1.deployment.insert tx with
    | (d, r) => ({ s1 with deployment := d }, r)
  | .execute _ _ _ =>
    let s1 := { s with kindMap := s.kindMap.insert tx.id TxKind.execute }
    match s1.execution.insert tx with
    | (e, r) => ({ s1 with execution := e }, r)

/-- The source's `TransactionStorage::remove` (lines 107-123): read the
kind tag (absent is the failed-to-get-the-type error), remove it, then
forward to the matching sub-schema. -/
def remove (s : TransactionState) (txId : Nat) : TransactionState × Except Err Unit :=
  match s.kindMap.getConfirmed txId with
  | none => (s, .error .notFound)
  | some kind =>
    let s1 := { s with kindMap := s.kindMap.remove txId }
    match kind with
    | .deploy =>
      match s1.deployment.remove txId with
      | (d, r) => ({ s1 with deployment := d }, r)
    | .execute =>
      match s1.execution.remove txId with
      | (e, r) => ({ s1 with execution := e }, r)

/-- The source's `TransactionStorage::get_transaction` (lines 73-86): a
missing kind tag is the failed-to-get-the-type error; otherwise dispatch. -/
def getTransaction (s : TransactionState) (txId : Nat) : Except Err (Option Transaction) :=
  match s.kindMap.getConfirmed txId with
  | none => .error .notFound
  | some .deploy => s.deployment.getTransaction txId
  | some .execute => s.execution.getTransaction txId

/-- The source's `TransactionStore::get_deployment` (lines 202-215): a
missing kind tag is the failed-to-get-the-type error; an execute tag is a
wrong-kind error. -/
def getDeployment (s : TransactionState) (txId : Nat) : Except Err (Option Deployment) :=
  match s.kindMap.getConfirmed txId with
  | none => .error .notFound
  | some .deploy => s.deployment.getDeployment txId
  | some .execute => .error .wrongKind

/-- The source's `TransactionStore::get_execution` (lines 218-231). -/
def getExecution (s : TransactionState) (txId : Nat) : Except Err (Option Execution) :=
  match s.kindMap.getConfirmed txId with
  | none => .error .notFound
  | some .deploy => .error .wrongKind
  | some .execute => s.execution.getExecution txId

/-- The source's `TransactionStore::get_edition` (lines 234-254). -/
def getEdition (s : TransactionState) (txId : Nat) : Except Err (Option Nat) :=
  match s.kindMap.getConfirmed txId with
  | none => .error .notFound
  | some .deploy =>
    match s.deployment.getProgramId txId with
    | some programId => .ok (s.deployment.getEditionP programId)
    | none => .error .corrupt
  | some .execute => s.execution.getEdition txId

/-- The source's `TransactionStore::get_additional_fee` (lines 257-270);
the deployment branch forwards to the spec-modelled deployment
`get_additional_fee`. -/
def getAdditionalFee (s : TransactionState) (txId : Nat) : Except Err (Option Transition) :=
  match s.kindMap.getConfirmed txId with
  | none => .error .notFound
  | some .deploy => s.deployment.getAdditionalFee txId
  | some .execute => s.execution.getAdditionalFee txId

end TransactionState

/-! ## Observation helpers and concrete sample inputs

Definitions used only to state theorems: expected write logs, a counter of
batch-control calls, and small concrete transactions and stores used by
witnesses and counterexamples. -/

/-- The number of batch-control calls recorded in a log. -/
def countBatchControl (l : List WOp) : Nat :=
  (l.filter WOp.isBatchControl).length

/-- The write sequence `DeploymentStorage::insert` stages for a well-formed
deployment, in source order, bracketed by the scope's start and commit. -/
def depInsertLog (txId owner : Nat) (d : Deployment) (fee : Fee) : List WOp :=
  [WOp.startAtomic,
   WOp.depId txId (some d.program.pid),
   WOp.depEdition d.program.pid (some d.edition),
   WOp.depReverseId (d.program.pid, d.edition) (some txId),
   WOp.depOwner (d.program.pid, d.edition) (some owner),
   WOp.depProgram (d.program.pid, d.edition) (some d.program)] ++
  d.verifyingKeys.flatMap (fun q =>
    [WOp.depVerifyingKey (d.program.pid, q.1, d.edition) (some q.2.1),
     WOp.depCertificate (d.program.pid, q.1, d.edition) (some q.2.2)]) ++
  [WOp.depFee txId (some (fee.transition.tid, fee.globalStateRoot, fee.inclusionProof)),
   WOp.depReverseFee fee.transition.tid (some txId),
   WOp.transition fee.transition.tid (some fee.transition),
   WOp.finishAtomic]

/-- The removal sequence `DeploymentStorage::remove` stages once its four
lookups have succeeded, in source order, bracketed by the scope's start and
commit. -/
def depRemoveLog (txId programId edition : Nat) (program : Program)
    (feeTransitionId : Nat) : List WOp :=
  [WOp.startAtomic,
   WOp.depId txId none,
   WOp.depEdition programId none,
   WOp.depReverseId (programId, edition) none,
   WOp.depOwner (programId, edition) none,
   WOp.depProgram (programId, edition) none] ++
  program.functions.flatMap (fun fn =>
    [WOp.depVerifyingKey (programId, fn, edition) none,
     WOp.depCertificate (programId, fn, edition) none]) ++
  [WOp.depFee txId none,
   WOp.depReverseFee feeTransitionId none,
   WOp.transition feeTransitionId none,
   WOp.finishAtomic]

/-- A concrete map view whose confirmed read fails on key 0 and whose
pending view stages an insert on key 1 and a removal on key 2. -/
def mapViewW : MapView Nat Nat :=
  { getConfirmed := fun k => if k = 0 then .error .backendFault else .ok (some (k + 10)),
    getPending := fun k =>
      if k = 1 then some (some 7) else if k = 2 then some none else none }

/-- A concrete valid execution transaction with one transition and no fee. -/
def txExecW : Transaction :=
  Transaction.fromExecution ⟨0, [⟨1, 0⟩]⟩ none

/-- A concrete valid execution transaction with two transitions and a fee
transition. -/
def txExecFeeW : Transaction :=
  Transaction.fromExecution ⟨3, [⟨1, 0⟩, ⟨2, 0⟩]⟩ (some ⟨4, 1⟩)

/-- A concrete well-formed deployment: program 1 with the single function 2,
edition 7, verifying key 5, certificate 6. -/
def depW : Deployment := ⟨7, ⟨1, [2]⟩, [(2, 5, 6)]⟩

/-- The fee of the concrete deployment: fee transition 3, state root 4. -/
def feeW : Fee := ⟨⟨3, 0⟩, 4, none⟩

/-- A concrete valid deployment transaction built from `depW` and `feeW`. -/
def txDeployW : Transaction :=
  Transaction.fromDeployment 8 depW feeW

/-- A concrete malformed deployment: the verifying-key list is empty while
the program declares function 2, so `check_is_ordered` fails. -/
def depBadW : Deployment := ⟨0, ⟨1, [2]⟩, []⟩

/-- The fee of the malformed deployment sample. -/
def feeBadW : Fee := ⟨⟨3, 0⟩, 0, none⟩

/-- A concrete malformed deployment transaction (ID 9). -/
def txBadW : Transaction :=
  Transaction.deploy 9 0 depBadW feeBadW

/-- The deployment schema state after inserting `txDeployW` into the empty
store (used to exercise the remove paths). -/
def sDepW : DeploymentState :=
  (DeploymentState.empty.insert txDeployW).1

/-- A deployment state whose ID map has an entry but whose edition map does
not: the first corruption case of remove. -/
def depCorrupt1 : DeploymentState :=
  { DeploymentState.empty with idMap := ⟨[(9, 1)], none⟩ }

/-- A deployment state with ID and edition entries but no stored program:
the second corruption case of remove. -/
def depCorrupt2 : DeploymentState :=
  { DeploymentState.empty with
    idMap := ⟨[(9, 1)], none⟩,
    editionMap := ⟨[(1, 7)], none⟩ }

/-- A deployment state with ID, edition and program entries but no fee
entry: the third corruption case of remove. -/
def depCorrupt3 : DeploymentState :=
  { DeploymentState.empty with
    idMap := ⟨[(9, 1)], none⟩,
    editionMap := ⟨[(1, 7)], none⟩,
    programMap := ⟨[((1, 7), ⟨1, [2]⟩)], none⟩ }

/-- A top-level state holding only a dangling deploy kind tag for ID 9. -/
def kindOnlyW : TransactionState :=
  { TransactionState.empty with kindMap := ⟨[(9, TxKind.deploy)], none⟩ }

/-- One log is an extension of another by map writes only - no
batch-control calls recorded in between. -/
def logExtendsNC (l l' : List WOp) : Prop :=
  ∃ d, l' = l ++ d ∧ ∀ w ∈ d, w.isBatchControl = false

/-- An execution store whose backend is injected to fail when inserting
transition 5. -/
def execFailW : ExecutionState :=
  { ExecutionState.empty with transitionStore := ⟨Store.empty, [5]⟩ }

/-- An execution transaction whose middle transition is the one the
injected backend fault rejects. -/
def txExecFailW : Transaction :=
  Transaction.fromExecution ⟨0, [⟨4, 0⟩, ⟨5, 0⟩, ⟨6, 0⟩]⟩ none

/-! # Lemmas

Entry-list and store lemmas, loop characterizations, and the claim
theorems. -/

theorem lookupEntries_nil {K V : Type} [DecidableEq K] (k : K) :
    lookupEntries ([] : List (K × V)) k = none := rfl

theorem lookupEntries_cons {K V : Type} [DecidableEq K] (p : K × V) (l : List (K × V))
    (k : K) :
    lookupEntries (p :: l) k = if p.1 = k then some p.2 else lookupEntries l k := by
  by_cases h : p.1 = k <;> simp [lookupEntries, List.find?_cons, h]

theorem lookupEntries_filter_ne {K V : Type} [DecidableEq K] (l : List (K × V))
    (k k' : K) (h : k' ≠ k) :
    lookupEntries (l.filter (fun p => !(decide (p.1 = k)))) k' = lookupEntries l k' := by
  induction l with
  | nil => rfl
  | cons p t ih =>
    by_cases hp : p.1 = k
    · have hne : ¬ k = k' := fun hh => h hh.symm
      simp [List.filter_cons, hp, lookupEntries_cons, ih, hne]
    · simp [List.filter_cons, hp, lookupEntries_cons, ih]

theorem lookupEntries_insertEntry {K V : Type} [DecidableEq K] (l : List (K × V))
    (k k' : K) (v : V) :
    lookupEntries (insertEntry l k v) k' =
      if k' = k then some v else lookupEntries l k' := by
  unfold insertEntry
  rw [lookupEntries_cons]
  by_cases h : k' = k
  · simp [h]
  · simp only [if_neg h]
    rw [if_neg (fun hh => h hh.symm)]
    exact lookupEntries_filter_ne l k k' h

theorem lookupEntries_filter_self {K V : Type} [DecidableEq K] (l : List (K × V))
    (k : K) :
    lookupEntries (l.filter (fun p => !(decide (p.1 = k)))) k = none := by
  induction l with
  | nil => rfl
  | cons p t ih =>
    by_cases hp : p.1 = k
    · simp [List.filter_cons, hp, ih]
    · simp [List.filter_cons, hp, lookupEntries_cons, ih]

theorem lookupEntries_eraseEntry {K V : Type} [DecidableEq K] (l : List (K × V))
    (k k' : K) :
    lookupEntries (eraseEntry l k) k' =
      if k' = k then none else lookupEntries l k' := by
  unfold eraseEntry
  by_cases h : k' = k
  · rw [if_pos h, h]
    exact lookupEntries_filter_self l k
  · rw [if_neg h]
    exact lookupEntries_filter_ne l k k' h

theorem applyOps_append {K V : Type} [DecidableEq K] (c : List (K × V))
    (l1 l2 : List (K × Option V)) :
    applyOps c (l1 ++ l2) = applyOps (applyOps c l1) l2 := by
  induction l1 generalizing c with
  | nil => rfl
  | cons p t ih =>
    rcases p with ⟨k, v⟩
    cases v <;> simp [applyOps, ih]

theorem insertEntriesList_cons {K V : Type} [DecidableEq K] (c : List (K × V))
    (p : K × V) (l : List (K × V)) :
    insertEntriesList c (p :: l) = insertEntriesList (insertEntry c p.1 p.2) l := rfl

theorem eraseEntriesList_cons {K V : Type} [DecidableEq K] (c : List (K × V))
    (k : K) (ks : List K) :
    eraseEntriesList c (k :: ks) = eraseEntriesList (eraseEntry c k) ks := rfl

theorem insertEntriesList_append {K V : Type} [DecidableEq K] (c : List (K × V))
    (l1 l2 : List (K × V)) :
    insertEntriesList c (l1 ++ l2) = insertEntriesList (insertEntriesList c l1) l2 := by
  simp [insertEntriesList, List.foldl_append]

theorem eraseEntriesList_append {K V : Type} [DecidableEq K] (c : List (K × V))
    (l1 l2 : List K) :
    eraseEntriesList c (l1 ++ l2) = eraseEntriesList (eraseEntriesList c l1) l2 := by
  simp [eraseEntriesList, List.foldl_append]

theorem applyOps_map_insert {K V α : Type} [DecidableEq K] (c : List (K × V))
    (l : List α) (key : α → K) (val : α → V) :
    applyOps c (l.map (fun a => (key a, some (val a)))) =
      insertEntriesList c (l.map (fun a => (key a, val a))) := by
  induction l generalizing c with
  | nil => rfl
  | cons a t ih => simp [applyOps, insertEntriesList_cons, ih]

theorem applyOps_map_erase {K V α : Type} [DecidableEq K] (c : List (K × V))
    (l : List α) (key : α → K) :
    applyOps c (l.map (fun a => (key a, (none : Option V)))) =
      eraseEntriesList c (l.map key) := by
  induction l generalizing c with
  | nil => rfl
  | cons a t ih => simp [applyOps, eraseEntriesList_cons, ih]

theorem lookup_insertEntriesList_not_mem {K V : Type} [DecidableEq K]
    (c : List (K × V)) (l : List (K × V)) (k : K) (h : k ∉ l.map (fun p => p.1)) :
    lookupEntries (insertEntriesList c l) k = lookupEntries c k := by
  induction l generalizing c with
  | nil => rfl
  | cons p t ih =>
    simp only [List.map_cons, List.mem_cons, not_or] at h
    rw [insertEntriesList_cons, ih _ h.2, lookupEntries_insertEntry, if_neg h.1]

theorem lookup_insertEntriesList_mem_inj {K V α : Type} [DecidableEq K]
    (c : List (K × V)) (l : List α) (key : α → K) (val : α → V) (q : α)
    (hq : q ∈ l)
    (hinj : ∀ q1 ∈ l, ∀ q2 ∈ l, key q1 = key q2 → q1 = q2) :
    lookupEntries (insertEntriesList c (l.map (fun a => (key a, val a)))) (key q) =
      some (val q) := by
  induction l generalizing c with
  | nil => exact absurd hq (List.not_mem_nil q)
  | cons a t ih =>
    rw [List.map_cons, insertEntriesList_cons]
    by_cases hmem : key q ∈ t.map key
    · rcases List.mem_map.mp hmem with ⟨q', hq', hkey⟩
      have hqq : q' = q :=
        hinj q' (List.mem_cons_of_mem a hq') q hq hkey
      subst hqq
      exact ih _ hq'
        (fun q1 h1 q2 h2 => hinj q1 (List.mem_cons_of_mem a h1) q2
          (List.mem_cons_of_mem a h2))
    · have hqa : q = a := by
        rcases List.mem_cons.mp hq with h | h
        · exact h
        · exact absurd (List.mem_map_of_mem key h) hmem
      subst hqa
      rw [lookup_insertEntriesList_not_mem]
      · rw [lookupEntries_insertEntry, if_pos rfl]
      · simpa [List.map_map, Function.comp] using hmem

theorem lookup_insertEntriesList_const {K V α : Type} [DecidableEq K]
    (c : List (K × V)) (l : List α) (key : α → K) (v : V) (k : K) :
    lookupEntries (insertEntriesList c (l.map (fun a => (key a, v)))) k =
      if k ∈ l.map key then some v else lookupEntries c k := by
  induction l generalizing c with
  | nil => simp [insertEntriesList]
  | cons a t ih =>
    rw [List.map_cons, insertEntriesList_cons, ih]
    by_cases ht : k ∈ t.map key
    · simp [ht]
    · by_cases ha : k = key a <;>
        simp [ht, ha, lookupEntries_insertEntry]

theorem lookup_eraseEntriesList {K V : Type} [DecidableEq K] (c : List (K × V))
    (ks : List K) (k : K) :
    lookupEntries (eraseEntriesList c ks) k =
      if k ∈ ks then none else lookupEntries c k := by
  induction ks generalizing c with
  | nil => simp [eraseEntriesList]
  | cons a t ih =>
    rw [eraseEntriesList_cons, ih]
    by_cases ht : k ∈ t
    · simp [ht]
    · by_cases ha : k = a <;> simp [ht, ha, lookupEntries_eraseEntry]

/-! ## Characterization of the deployment schema's staged writes -/

theorem insertVerifyingKeysLoop_char (pid ed : Nat) (l : List (Nat × Nat × Nat))
    (m1 m2 : Store Nat Nat) (m3 m4 : Store (Nat × Nat) Nat)
    (m5 : Store (Nat × Nat) Program)
    (vkc : List ((Nat × Nat × Nat) × Nat))
    (vkops : List ((Nat × Nat × Nat) × Option Nat)) (vkcps : List Nat)
    (cc : List ((Nat × Nat × Nat) × Nat))
    (cops : List ((Nat × Nat × Nat) × Option Nat)) (ccps : List Nat)
    (m8 : Store Nat (Nat × Nat × Option Nat)) (m9 : Store Nat Nat)
    (ts : TransitionStoreState) (lg : List WOp) :
    DeploymentState.insertVerifyingKeysLoop pid ed l
      ⟨m1, m2, m3, m4, m5, ⟨vkc, some (vkops, vkcps)⟩, ⟨cc, some (cops, ccps)⟩,
        m8, m9, ts, lg⟩ =
      ⟨m1, m2, m3, m4, m5,
        ⟨vkc, some (vkops ++ l.map (fun q => ((pid, q.1, ed), some q.2.1)), vkcps)⟩,
        ⟨cc, some (cops ++ l.map (fun q => ((pid, q.1, ed), some q.2.2)), ccps)⟩,
        m8, m9, ts,
        lg ++ l.flatMap (fun q =>
          [WOp.depVerifyingKey (pid, q.1, ed) (some q.2.1),
           WOp.depCertificate (pid, q.1, ed) (some q.2.2)])⟩ := by
  induction l generalizing vkops cops lg with
  | nil => simp [DeploymentState.insertVerifyingKeysLoop]
  | cons q t ih =>
    simp only [DeploymentState.insertVerifyingKeysLoop,
      DeploymentState.insertVerifyingKey, DeploymentState.insertCertificate,
      Store.insert]
    rw [ih]
    simp

theorem removeVerifyingKeysLoop_char (pid ed : Nat) (fns : List Nat)
    (m1 m2 : Store Nat Nat) (m3 m4 : Store (Nat × Nat) Nat)
    (m5 : Store (Nat × Nat) Program)
    (vkc : List ((Nat × Nat × Nat) × Nat))
    (vkops : List ((Nat × Nat × Nat) × Option Nat)) (vkcps : List Nat)
    (cc : List ((Nat × Nat × Nat) × Nat))
    (cops : List ((Nat × Nat × Nat) × Option Nat)) (ccps : List Nat)
    (m8 : Store Nat (Nat × Nat × Option Nat)) (m9 : Store Nat Nat)
    (ts : TransitionStoreState) (lg : List WOp) :
    DeploymentState.removeVerifyingKeysLoop pid ed fns
      ⟨m1, m2, m3, m4, m5, ⟨vkc, some (vkops, vkcps)⟩, ⟨cc, some (cops, ccps)⟩,
        m8, m9, ts, lg⟩ =
      ⟨m1, m2, m3, m4, m5,
        ⟨vkc, some (vkops ++ fns.map (fun fn => ((pid, fn, ed), none)), vkcps)⟩,
        ⟨cc, some (cops ++ fns.map (fun fn => ((pid, fn, ed), none)), ccps)⟩,
        m8, m9, ts,
        lg ++ fns.flatMap (fun fn =>
          [WOp.depVerifyingKey (pid, fn, ed) none,
           WOp.depCertificate (pid, fn, ed) none])⟩ := by
  induction fns generalizing vkops cops lg with
  | nil => simp [DeploymentState.removeVerifyingKeysLoop]
  | cons fn t ih =>
    simp only [DeploymentState.removeVerifyingKeysLoop,
      DeploymentState.removeVerifyingKey, DeploymentState.removeCertificate,
      Store.remove]
    rw [ih]
    simp

theorem deployment_insert_ok_char (s : DeploymentState) (txId owner : Nat)
    (d : Deployment) (fee : Fee)
    (hna : s.isAtomicInProgressD = false)
    (hord : d.checkIsOrdered = true)
    (hfee : fee.transition.tid ∉ s.transitionStore.failInsert) :
    s.insert (.deploy txId owner d fee) =
      ({ idMap := ⟨insertEntry s.idMap.confirmed txId d.program.pid, none⟩,
         editionMap := ⟨insertEntry s.editionMap.confirmed d.program.pid d.edition, none⟩,
         reverseIdMap :=
           ⟨insertEntry s.reverseIdMap.confirmed (d.program.pid, d.edition) txId, none⟩,
         ownerMap :=
           ⟨insertEntry s.ownerMap.confirmed (d.program.pid, d.edition) owner, none⟩,
         programMap :=
           ⟨insertEntry s.programMap.confirmed (d.program.pid, d.edition) d.program, none⟩,
         verifyingKeyMap :=
           ⟨insertEntriesList s.verifyingKeyMap.confirmed
             (d.verifyingKeys.map (fun q => ((d.program.pid, q.1, d.edition), q.2.1))),
             none⟩,
         certificateMap :=
           ⟨insertEntriesList s.certificateMap.confirmed
             (d.verifyingKeys.map (fun q => ((d.program.pid, q.1, d.edition), q.2.2))),
             none⟩,
         feeMap :=
           ⟨insertEntry s.feeMap.confirmed txId
             (fee.transition.tid, fee.globalStateRoot, fee.inclusionProof), none⟩,
         reverseFeeMap :=
           ⟨insertEntry s.reverseFeeMap.confirmed fee.transition.tid txId, none⟩,
         transitionStore :=
           ⟨⟨insertEntry s.transitionStore.store.confirmed fee.transition.tid
             fee.transition, none⟩, s.transitionStore.failInsert⟩,
         log := s.log ++ depInsertLog txId owner d fee }, .ok ()) := by
  obtain ⟨m1, m2, m3, m4, m5, m6, m7, m8, m9, ⟨tsm, tfail⟩, lg⟩ := s
  simp only [DeploymentState.insert, hord, if_true]
  simp only [atomicBatchScope, depAtomicOps]
  rw [hna]
  simp only [DeploymentState.startAtomicD, Store.startAtomic,
    TransitionStoreState.startAtomicT, DeploymentState.insertBody,
    DeploymentState.insertId, DeploymentState.insertEdition,
    DeploymentState.insertReverseId, DeploymentState.insertOwner,
    DeploymentState.insertProgram, Store.insert]
  rw [insertVerifyingKeysLoop_char]
  simp only [DeploymentState.insertFee, DeploymentState.insertReverseFee,
    DeploymentState.insertTransition, TransitionStoreState.insertT, Store.insert]
  simp only [hfee, if_false]
  simp only [DeploymentState.finishAtomicD, Store.finishAtomic,
    TransitionStoreState.finishAtomicT]
  simp [applyOps, applyOps_map_insert, depInsertLog]

theorem deployment_remove_ok_char (s : DeploymentState) (txId pid ed : Nat)
    (program : Program) (ftid gsr : Nat) (pf : Option Nat)
    (hna : s.isAtomicInProgressD = false)
    (h1 : s.getProgramId txId = some pid)
    (h2 : s.getEditionP pid = some ed)
    (h3 : s.programMap.getConfirmed (pid, ed) = some program)
    (h4 : s.feeMap.getConfirmed txId = some (ftid, gsr, pf)) :
    s.remove txId =
      ({ idMap := ⟨eraseEntry s.idMap.confirmed txId, none⟩,
         editionMap := ⟨eraseEntry s.editionMap.confirmed pid, none⟩,
         reverseIdMap := ⟨eraseEntry s.reverseIdMap.confirmed (pid, ed), none⟩,
         ownerMap := ⟨eraseEntry s.ownerMap.confirmed (pid, ed), none⟩,
         programMap := ⟨eraseEntry s.programMap.confirmed (pid, ed), none⟩,
         verifyingKeyMap :=
           ⟨eraseEntriesList s.verifyingKeyMap.confirmed
             (program.functions.map (fun fn => (pid, fn, ed))), none⟩,
         certificateMap :=
           ⟨eraseEntriesList s.certificateMap.confirmed
             (program.functions.map (fun fn => (pid, fn, ed))), none⟩,
         feeMap := ⟨eraseEntry s.feeMap.confirmed txId, none⟩,
         reverseFeeMap := ⟨eraseEntry s.reverseFeeMap.confirmed ftid, none⟩,
         transitionStore :=
           ⟨⟨eraseEntry s.transitionStore.store.confirmed ftid, none⟩,
             s.transitionStore.failInsert⟩,
         log := s.log ++ depRemoveLog txId pid ed program ftid }, .ok ()) := by
  obtain ⟨m1, m2, m3, m4, m5, m6, m7, m8, m9, ⟨tsm, tfail⟩, lg⟩ := s
  simp only [DeploymentState.remove, h1, h2, h3, h4]
  simp only [atomicBatchScope, depAtomicOps]
  rw [hna]
  simp only [DeploymentState.startAtomicD, Store.startAtomic,
    TransitionStoreState.startAtomicT, DeploymentState.removeBody,
    DeploymentState.removeId, DeploymentState.removeEdition,
    DeploymentState.removeReverseId, DeploymentState.removeOwner,
    DeploymentState.removeProgram, Store.remove]
  rw [removeVerifyingKeysLoop_char]
  simp only [DeploymentState.removeFee, DeploymentState.removeReverseFee,
    DeploymentState.removeTransition, TransitionStoreState.removeT, Store.remove]
  simp only [DeploymentState.finishAtomicD, Store.finishAtomic,
    TransitionStoreState.finishAtomicT]
  simp [applyOps, applyOps_map_erase, depRemoveLog, List.map_map, Function.comp]

/-! ## Characterization of the execution schema's direct writes -/

theorem insertTransitionsLoop_ok_char (txId : Nat) (ts : List Transition)
    (im : Store Nat (List Nat × Option Nat)) (rc : List (Nat × Nat))
    (em : Store Nat Nat) (tsc : List (Nat × Transition)) (tfail : List Nat)
    (lg : List WOp) (hfail : ∀ t ∈ ts, t.tid ∉ tfail) :
    ExecutionState.insertTransitionsLoop txId ts
      ⟨im, ⟨rc, none⟩, em, ⟨⟨tsc, none⟩, tfail⟩, lg⟩ =
      (⟨im, ⟨insertEntriesList rc (ts.map (fun t => (t.tid, txId))), none⟩, em,
        ⟨⟨insertEntriesList tsc (ts.map (fun t => (t.tid, t))), none⟩, tfail⟩,
        lg ++ ts.flatMap (fun t =>
          [WOp.execReverseId t.tid (some txId), WOp.transition t.tid (some t)])⟩,
        .ok ()) := by
  induction ts generalizing rc tsc lg with
  | nil => simp [ExecutionState.insertTransitionsLoop, insertEntriesList]
  | cons t rest ih =>
    have hhead : t.tid ∉ tfail := hfail t (List.mem_cons_self t rest)
    simp only [ExecutionState.insertTransitionsLoop,
      ExecutionState.insertReverseIdE, ExecutionState.insertTransitionE,
      TransitionStoreState.insertT, Store.insert, hhead, if_false]
    rw [ih _ _ _ (fun u hu => hfail u (List.mem_cons_of_mem t hu))]
    simp [insertEntriesList_cons]

theorem insertTransitionsLoop_fail_char (txId : Nat) (ts1 : List Transition)
    (t0 : Transition) (ts2 : List Transition)
    (im : Store Nat (List Nat × Option Nat)) (rc : List (Nat × Nat))
    (em : Store Nat Nat) (tsc : List (Nat × Transition)) (tfail : List Nat)
    (lg : List WOp) (hfail1 : ∀ t ∈ ts1, t.tid ∉ tfail) (ht0 : t0.tid ∈ tfail) :
    ExecutionState.insertTransitionsLoop txId (ts1 ++ t0 :: ts2)
      ⟨im, ⟨rc, none⟩, em, ⟨⟨tsc, none⟩, tfail⟩, lg⟩ =
      (⟨im, ⟨insertEntriesList rc ((ts1 ++ [t0]).map (fun t => (t.tid, txId))), none⟩,
        em, ⟨⟨insertEntriesList tsc (ts1.map (fun t => (t.tid, t))), none⟩, tfail⟩,
        lg ++ ts1.flatMap (fun t =>
          [WOp.execReverseId t.tid (some txId), WOp.transition t.tid (some t)]) ++
          [WOp.execReverseId t0.tid (some txId)]⟩,
        .error .backendFault) := by
  induction ts1 generalizing rc tsc lg with
  | nil =>
    simp only [List.nil_append, ExecutionState.insertTransitionsLoop,
      ExecutionState.insertReverseIdE, ExecutionState.insertTransitionE,
      TransitionStoreState.insertT, Store.insert, ht0, if_true]
    simp [insertEntriesList]
  | cons t rest ih =>
    have hhead : t.tid ∉ tfail := hfail1 t (List.mem_cons_self t rest)
    simp only [List.cons_append, List.append_eq, ExecutionState.insertTransitionsLoop,
      ExecutionState.insertReverseIdE, ExecutionState.insertTransitionE,
      TransitionStoreState.insertT, Store.insert, hhead, if_false]
    rw [ih _ _ _ (fun u hu => hfail1 u (List.mem_cons_of_mem t hu))]
    simp [insertEntriesList_cons]

theorem removeTransitionsLoop_char (tids : List Nat)
    (im : Store Nat (List Nat × Option Nat)) (rc : List (Nat × Nat))
    (em : Store Nat Nat) (tsc : List (Nat × Transition)) (tfail : List Nat)
    (lg : List WOp) :
    ExecutionState.removeTransitionsLoop tids
      ⟨im, ⟨rc, none⟩, em, ⟨⟨tsc, none⟩, tfail⟩, lg⟩ =
      ⟨im, ⟨eraseEntriesList rc tids, none⟩, em,
        ⟨⟨eraseEntriesList tsc tids, none⟩, tfail⟩,
        lg ++ tids.flatMap (fun k =>
          [WOp.execReverseId k none, WOp.transition k none])⟩ := by
  induction tids generalizing rc tsc lg with
  | nil => simp [ExecutionState.removeTransitionsLoop, eraseEntriesList]
  | cons k rest ih =>
    simp only [ExecutionState.removeTransitionsLoop,
      ExecutionState.removeReverseIdE, ExecutionState.removeTransitionE,
      TransitionStoreState.removeT, Store.remove]
    rw [ih]
    simp [eraseEntriesList_cons]

theorem execution_insert_ok_char (s : ExecutionState) (txId : Nat) (e : Execution)
    (optFee : Option Transition)
    (hb1 : s.idMap.batch = none) (hb2 : s.reverseIdMap.batch = none)
    (hb3 : s.editionMap.batch = none) (hb4 : s.transitionStore.store.batch = none)
    (hfail : ∀ t ∈ e.transitions ++ optFee.toList, t.tid ∉ s.transitionStore.failInsert) :
    s.insert (.execute txId e optFee) =
      (⟨⟨insertEntry s.idMap.confirmed txId
          (e.transitions.map (fun t => t.tid), optFee.map (fun t => t.tid)), none⟩,
        ⟨insertEntriesList s.reverseIdMap.confirmed
          ((e.transitions ++ optFee.toList).map (fun t => (t.tid, txId))), none⟩,
        ⟨insertEntry s.editionMap.confirmed txId e.edition, none⟩,
        ⟨⟨insertEntriesList s.transitionStore.store.confirmed
          ((e.transitions ++ optFee.toList).map (fun t => (t.tid, t))), none⟩,
          s.transitionStore.failInsert⟩,
        s.log ++
          [WOp.execId txId (some (e.transitions.map (fun t => t.tid),
            optFee.map (fun t => t.tid))),
           WOp.execEdition txId (some e.edition)] ++
          (e.transitions ++ optFee.toList).flatMap (fun t =>
            [WOp.execReverseId t.tid (some txId), WOp.transition t.tid (some t)])⟩,
        .ok ()) := by
  obtain ⟨⟨ic, ib⟩, ⟨rc, rb⟩, ⟨ec, eb⟩, ⟨⟨tc, tb⟩, tfail⟩, lg⟩ := s
  simp only at hb1 hb2 hb3 hb4
  subst hb1; subst hb2; subst hb3; subst hb4
  simp only [ExecutionState.insert, ExecutionState.insertIdE,
    ExecutionState.insertEditionE, Store.insert]
  cases optFee with
  | none =>
    rw [insertTransitionsLoop_ok_char _ _ _ _ _ _ _ _
      (fun u hu => hfail u (by simpa using hu))]
    simp
  | some feeT =>
    have hft : feeT.tid ∉ tfail := hfail feeT (by simp)
    rw [insertTransitionsLoop_ok_char _ _ _ _ _ _ _ _
      (fun u hu => hfail u (List.mem_append_left _ hu))]
    simp only [ExecutionState.insertReverseIdE, ExecutionState.insertTransitionE,
      TransitionStoreState.insertT, Store.insert, hft, if_false]
    simp [insertEntriesList_append, insertEntriesList_cons, insertEntriesList]

theorem execution_remove_ok_char (s : ExecutionState) (txId : Nat)
    (tids : List Nat) (optFeeId : Option Nat)
    (hb1 : s.idMap.batch = none) (hb2 : s.reverseIdMap.batch = none)
    (hb3 : s.editionMap.batch = none) (hb4 : s.transitionStore.store.batch = none)
    (hid : s.idMap.getConfirmed txId = some (tids, optFeeId)) :
    s.remove txId =
      (⟨⟨eraseEntry s.idMap.confirmed txId, none⟩,
        ⟨eraseEntriesList s.reverseIdMap.confirmed (tids ++ optFeeId.toList), none⟩,
        ⟨eraseEntry s.editionMap.confirmed txId, none⟩,
        ⟨⟨eraseEntriesList s.transitionStore.store.confirmed
          (tids ++ optFeeId.toList), none⟩, s.transitionStore.failInsert⟩,
        s.log ++ [WOp.execId txId none, WOp.execEdition txId none] ++
          (tids ++ optFeeId.toList).flatMap (fun k =>
            [WOp.execReverseId k none, WOp.transition k none])⟩,
        .ok ()) := by
  obtain ⟨⟨ic, ib⟩, ⟨rc, rb⟩, ⟨ec, eb⟩, ⟨⟨tc, tb⟩, tfail⟩, lg⟩ := s
  simp only at hb1 hb2 hb3 hb4 hid
  subst hb1; subst hb2; subst hb3; subst hb4
  simp only [ExecutionState.remove, hid, ExecutionState.removeIdE,
    ExecutionState.removeEditionE, Store.remove]
  cases optFeeId with
  | none =>
    rw [removeTransitionsLoop_char]
    simp
  | some feeId =>
    rw [removeTransitionsLoop_char]
    simp only [ExecutionState.removeReverseIdE, ExecutionState.removeTransitionE,
      TransitionStoreState.removeT, Store.remove]
    simp [eraseEntriesList_append, eraseEntriesList_cons, eraseEntriesList]

/-! ## Claims C2, C3, C7, C10 -/

/-- C2: `atomic_batch_scope(owner, body)` calls `atomic_checkpoint` before
running the body when a batch is already in progress on the owner and
`start_atomic` otherwise; when the body returns `Ok` it calls
`finish_atomic` and returns the value only if it started the batch
(returning the value directly in the nested case), and when the body
returns `Err` it calls `atomic_rewind` and propagates the error without
finishing or aborting the batch. Proved as: the macro translation equals
the transcription of the spec's description, for every owner, state and
body. -/
theorem claim_C2_atomic_batch_scope {σ α : Type} (ops : AtomicOps σ) (s : σ)
    (body : σ → σ × Except Err α) :
    atomicBatchScope ops s body = atomicBatchScopeSpec ops s body := by
  unfold atomicBatchScope atomicBatchScopeSpec
  cases h : ops.isAtomicInProgress s
  · simp only [h, Bool.false_eq_true, if_false]
  · simp only [h, if_true]

/-- C3: `atomic_finalize(owner, body)` fails immediately - without calling
`start_atomic`, without running the body, and leaving the state untouched -
when a batch is already in progress; otherwise it starts a batch, runs the
body, commits on `Ok` and aborts and propagates on `Err`. Proved as: the
macro translation equals the transcription of the spec's description, for
every owner, state and body. -/
theorem claim_C3_atomic_finalize {σ : Type} (ops : AtomicOps σ) (s : σ)
    (body : σ → σ × Except Err Unit) :
    atomicFinalize ops s body = atomicFinalizeSpec ops s body := by
  unfold atomicFinalize atomicFinalizeSpec
  cases h : ops.isAtomicInProgress s
  · simp only [h, Bool.false_eq_true, if_false]
  · simp only [h, if_true]

/-- C7: `get_speculative(key)` equals `Some(v)` when `get_pending(key)` is
`Some(Some(v))`, equals `None` when it is `Some(None)`, and equals the
confirmed value when it is `None` - and an error from `get_confirmed` is
propagated rather than concealed (taking precedence over any pending
value). -/
theorem claim_C7_get_speculative {K V : Type} (m : MapView K V) (k : K) :
    (∀ e, m.getConfirmed k = .error e → m.getSpeculative k = .error e) ∧
    (∀ w, m.getConfirmed k = .ok w →
      (∀ v, m.getPending k = some (some v) → m.getSpeculative k = .ok (some v)) ∧
      (m.getPending k = some none → m.getSpeculative k = .ok none) ∧
      (m.getPending k = none → m.getSpeculative k = .ok w)) := by
  constructor
  · intro e he
    simp [MapView.getSpeculative, he]
  · intro w hw
    refine ⟨fun v hv => ?_, fun hv => ?_, fun hv => ?_⟩ <;>
      simp [MapView.getSpeculative, hw, hv]

/-- Witness for C7 at the concrete map view `mapViewW`. -/
theorem claim_C7_witness :
    mapViewW.getConfirmed 0 = .error .backendFault ∧
    mapViewW.getSpeculative 0 = .error .backendFault ∧
    mapViewW.getConfirmed 1 = .ok (some 11) ∧
    mapViewW.getPending 1 = some (some 7) ∧
    mapViewW.getSpeculative 1 = .ok (some 7) ∧
    mapViewW.getPending 2 = some none ∧
    mapViewW.getSpeculative 2 = .ok none ∧
    mapViewW.getPending 3 = none ∧
    mapViewW.getSpeculative 3 = .ok (some 13) :=
  ⟨rfl, (claim_C7_get_speculative mapViewW 0).1 .backendFault rfl, rfl, rfl,
    ((claim_C7_get_speculative mapViewW 1).2 (some 11) rfl).1 7 rfl, rfl,
    ((claim_C7_get_speculative mapViewW 2).2 (some 12) rfl).2.1 rfl, rfl,
    ((claim_C7_get_speculative mapViewW 3).2 (some 13) rfl).2.2 rfl⟩

/-- C10: for a transaction ID with no entry in the top-level kind-tag map,
each of the five store getters returns the failed-to-get-the-type error
rather than `Ok(None)`. -/
theorem claim_C10_getters_missing_tag (s : TransactionState) (t : Nat)
    (h : s.kindMap.getConfirmed t = none) :
    s.getTransaction t = .error .notFound ∧
    s.getDeployment t = .error .notFound ∧
    s.getExecution t = .error .notFound ∧
    s.getEdition t = .error .notFound ∧
    s.getAdditionalFee t = .error .notFound := by
  refine ⟨?_, ?_, ?_, ?_, ?_⟩ <;>
    simp [TransactionState.getTransaction, TransactionState.getDeployment,
      TransactionState.getExecution, TransactionState.getEdition,
      TransactionState.getAdditionalFee, h]

/-- Witness for C10 on the empty store at transaction ID 0. -/
theorem claim_C10_witness :
    TransactionState.empty.kindMap.getConfirmed 0 = none ∧
    TransactionState.empty.getTransaction 0 = .error .notFound ∧
    TransactionState.empty.getDeployment 0 = .error .notFound ∧
    TransactionState.empty.getExecution 0 = .error .notFound ∧
    TransactionState.empty.getEdition 0 = .error .notFound ∧
    TransactionState.empty.getAdditionalFee 0 = .error .notFound := by
  have h : TransactionState.empty.kindMap.getConfirmed 0 = none := rfl
  have hall := claim_C10_getters_missing_tag TransactionState.empty 0 h
  exact ⟨h, hall.1, hall.2.1, hall.2.2.1, hall.2.2.2.1, hall.2.2.2.2⟩

/-! ## Claim C5: deployment insert -/

/-- C5: `DeploymentStorage::insert` fails with the wrong-kind error for
every execute transaction and with the malformed-input error whenever
`check_is_ordered` fails, staging no writes (state unchanged) in either
case; for a well-formed deploy transaction, invoked with no batch already
open, it succeeds and its observed writes are exactly, in order: the
scope's start, `id[tx]`, `edition[program_id]`,
`reverse_id[(program_id, edition)]`, the owner, the program, then for each
pair in `deployment.verifying_keys()` the verifying key and the
certificate, then `fee[tx]`, `reverse_fee[fee.transition_id]`, the fee
transition into the transition store, and the scope's commit
(`depInsertLog`). -/
theorem claim_C5_deployment_insert (s : DeploymentState) :
    (∀ txId e optFee, s.insert (.execute txId e optFee) = (s, .error .wrongKind)) ∧
    (∀ txId owner d fee, d.checkIsOrdered = false →
      s.insert (.deploy txId owner d fee) = (s, .error .malformedInput)) ∧
    (∀ txId owner d fee, s.isAtomicInProgressD = false → d.checkIsOrdered = true →
      fee.transition.tid ∉ s.transitionStore.failInsert →
      (s.insert (.deploy txId owner d fee)).2 = .ok () ∧
      (s.insert (.deploy txId owner d fee)).1.log =
        s.log ++ depInsertLog txId owner d fee) := by
  refine ⟨fun txId e optFee => rfl, fun txId owner d fee h => ?_,
    fun txId owner d fee hna hord hfee => ?_⟩
  · simp [DeploymentState.insert, h]
  · rw [deployment_insert_ok_char s txId owner d fee hna hord hfee]
    exact ⟨rfl, rfl⟩

/-- Witness for C5: the three cases exercised on concrete inputs. -/
theorem claim_C5_witness :
    DeploymentState.empty.insert txExecW = (DeploymentState.empty, .error .wrongKind) ∧
    depBadW.checkIsOrdered = false ∧
    DeploymentState.empty.insert txBadW = (DeploymentState.empty, .error .malformedInput) ∧
    DeploymentState.empty.isAtomicInProgressD = false ∧
    depW.checkIsOrdered = true ∧
    (DeploymentState.empty.insert txDeployW).2 = .ok () ∧
    (DeploymentState.empty.insert txDeployW).1.log =
      DeploymentState.empty.log ++ depInsertLog (deployTxId 8 depW feeW) 8 depW feeW := by
  have h1 := (claim_C5_deployment_insert DeploymentState.empty).1
    (executeTxId ⟨0, [⟨1, 0⟩]⟩ none) ⟨0, [⟨1, 0⟩]⟩ none
  have h2 := (claim_C5_deployment_insert DeploymentState.empty).2.1 9 0 depBadW feeBadW
    (by decide)
  have h3 := (claim_C5_deployment_insert DeploymentState.empty).2.2
    (deployTxId 8 depW feeW) 8 depW feeW rfl (by decide) (by simp [DeploymentState.empty,
      TransitionStoreState.empty])
  exact ⟨h1, by decide, h2, rfl, by decide, h3.1, h3.2⟩

/-! ## Claim C6: deployment remove -/

/-- C6: `DeploymentStorage::remove(tx)` fails with the not-found error when
`id[tx]` is absent and with the corruption error when `id[tx]` is present
but the edition, the stored program, or the fee entry is absent - leaving
the state unchanged (no staged removals) in each failure case. When all
four lookups succeed and no batch is already open, it succeeds and its
observed writes are exactly, in order: the scope's start, the removals of
`id`, `edition`, `reverse_id`, `owner`, `program`, the verifying key and
certificate for every function name of the stored program, `fee`,
`reverse_fee`, the fee transition from the transition store, and the
scope's commit (`depRemoveLog`). -/
theorem claim_C6_deployment_remove (s : DeploymentState) :
    (∀ txId, s.getProgramId txId = none → s.remove txId = (s, .error .notFound)) ∧
    (∀ txId pid, s.getProgramId txId = some pid → s.getEditionP pid = none →
      s.remove txId = (s, .error .corrupt)) ∧
    (∀ txId pid ed, s.getProgramId txId = some pid → s.getEditionP pid = some ed →
      s.programMap.getConfirmed (pid, ed) = none →
      s.remove txId = (s, .error .corrupt)) ∧
    (∀ txId pid ed program, s.getProgramId txId = some pid →
      s.getEditionP pid = some ed →
      s.programMap.getConfirmed (pid, ed) = some program →
      s.feeMap.getConfirmed txId = none →
      s.remove txId = (s, .error .corrupt)) ∧
    (∀ txId pid ed program ftid gsr pf, s.isAtomicInProgressD = false →
      s.getProgramId txId = some pid → s.getEditionP pid = some ed →
      s.programMap.getConfirmed (pid, ed) = some program →
      s.feeMap.getConfirmed txId = some (ftid, gsr, pf) →
      (s.remove txId).2 = .ok () ∧
      (s.remove txId).1.log = s.log ++ depRemoveLog txId pid ed program ftid) := by
  refine ⟨fun txId h1 => ?_, fun txId pid h1 h2 => ?_, fun txId pid ed h1 h2 h3 => ?_,
    fun txId pid ed program h1 h2 h3 h4 => ?_,
    fun txId pid ed program ftid gsr pf hna h1 h2 h3 h4 => ?_⟩
  · simp [DeploymentState.remove, h1]
  · simp [DeploymentState.remove, h1, h2]
  · simp [DeploymentState.remove, h1, h2, h3]
  · simp [DeploymentState.remove, h1, h2, h3, h4]
  · rw [deployment_remove_ok_char s txId pid ed program ftid gsr pf hna h1 h2 h3 h4]
    exact ⟨rfl, rfl⟩

/-- Witness for C6: all five cases exercised on concrete stores - the empty
store, three partially corrupted stores, and the store holding the sample
deployment. -/
theorem claim_C6_witness :
    DeploymentState.empty.remove 9 = (DeploymentState.empty, .error .notFound) ∧
    depCorrupt1.remove 9 = (depCorrupt1, .error .corrupt) ∧
    depCorrupt2.remove 9 = (depCorrupt2, .error .corrupt) ∧
    depCorrupt3.remove 9 = (depCorrupt3, .error .corrupt) ∧
    (sDepW.remove (deployTxId 8 depW feeW)).2 = .ok () ∧
    (sDepW.remove (deployTxId 8 depW feeW)).1.log =
      sDepW.log ++ depRemoveLog (deployTxId 8 depW feeW) 1 7 ⟨1, [2]⟩ 3 := by
  have h1 := (claim_C6_deployment_remove DeploymentState.empty).1 9 rfl
  have h2 := (claim_C6_deployment_remove depCorrupt1).2.1 9 1 (by decide) (by decide)
  have h3 := (claim_C6_deployment_remove depCorrupt2).2.2.1 9 1 7 (by decide) (by decide)
    (by decide)
  have h4 := (claim_C6_deployment_remove depCorrupt3).2.2.2.1 9 1 7 ⟨1, [2]⟩ (by decide)
    (by decide) (by decide) (by decide)
  have h5 := (claim_C6_deployment_remove sDepW).2.2.2.2 (deployTxId 8 depW feeW) 1 7
    ⟨1, [2]⟩ 3 4 none (by decide) (by decide) (by decide) (by decide) (by decide)
  exact ⟨h1, h2, h3, h4, h5.1, h5.2⟩

/-! ## Claim C8: the execution transition reverse-index -/

theorem toList_map_tid (o : Option Transition) :
    o.toList.map (fun t => t.tid) = (o.map (fun t => t.tid)).toList := by
  cases o <;> rfl

/-- C8: inserting an execute transaction into fresh execution storage makes
`find_transaction_id` answer the transaction's ID for every one of its
transition IDs (fee transition included), and after `remove` succeeds every
one of those lookups answers `Ok(None)`. -/
theorem claim_C8_transition_reverse_index (txId : Nat) (e : Execution)
    (optFee : Option Transition) :
    (ExecutionState.empty.insert (.execute txId e optFee)).2 = .ok () ∧
    (∀ tid ∈ (e.transitions ++ optFee.toList).map (fun t => t.tid),
      (ExecutionState.empty.insert (.execute txId e optFee)).1.findTransactionId tid =
        .ok (some txId)) ∧
    ((ExecutionState.empty.insert (.execute txId e optFee)).1.remove txId).2 = .ok () ∧
    (∀ tid ∈ (e.transitions ++ optFee.toList).map (fun t => t.tid),
      ((ExecutionState.empty.insert (.execute txId e optFee)).1.remove txId).1.findTransactionId
        tid = .ok none) := by
  have hf : ∀ t ∈ e.transitions ++ optFee.toList,
      t.tid ∉ ExecutionState.empty.transitionStore.failInsert := by
    intro t _
    simp [ExecutionState.empty, TransitionStoreState.empty]
  rw [execution_insert_ok_char ExecutionState.empty txId e optFee rfl rfl rfl rfl hf]
  rw [execution_remove_ok_char _ txId (e.transitions.map (fun t => t.tid))
    (optFee.map (fun t => t.tid)) rfl rfl rfl rfl
    (by simp [Store.getConfirmed, lookupEntries_insertEntry])]
  refine ⟨rfl, fun tid htid => ?_, rfl, fun tid htid => ?_⟩
  · simp only [ExecutionState.findTransactionId, Store.getConfirmed]
    rw [lookup_insertEntriesList_const]
    rw [if_pos htid]
  · simp only [ExecutionState.findTransactionId, Store.getConfirmed]
    rw [lookup_eraseEntriesList, if_pos]
    rw [List.map_append, toList_map_tid] at htid
    exact htid

/-- Witness for C8 at the concrete execute transaction with transitions
1 and 2 and fee transition 4. -/
theorem claim_C8_witness :
    (ExecutionState.empty.insert txExecFeeW).2 = .ok () ∧
    (ExecutionState.empty.insert txExecFeeW).1.findTransactionId 1 =
      .ok (some txExecFeeW.id) ∧
    (ExecutionState.empty.insert txExecFeeW).1.findTransactionId 2 =
      .ok (some txExecFeeW.id) ∧
    (ExecutionState.empty.insert txExecFeeW).1.findTransactionId 4 =
      .ok (some txExecFeeW.id) ∧
    ((ExecutionState.empty.insert txExecFeeW).1.remove txExecFeeW.id).2 = .ok () ∧
    ((ExecutionState.empty.insert txExecFeeW).1.remove txExecFeeW.id).1.findTransactionId 1 =
      .ok none ∧
    ((ExecutionState.empty.insert txExecFeeW).1.remove txExecFeeW.id).1.findTransactionId 2 =
      .ok none ∧
    ((ExecutionState.empty.insert txExecFeeW).1.remove txExecFeeW.id).1.findTransactionId 4 =
      .ok none := by
  have h := claim_C8_transition_reverse_index
    (executeTxId ⟨3, [⟨1, 0⟩, ⟨2, 0⟩]⟩ (some ⟨4, 1⟩)) ⟨3, [⟨1, 0⟩, ⟨2, 0⟩]⟩ (some ⟨4, 1⟩)
  exact ⟨h.1, h.2.1 1 (by decide), h.2.1 2 (by decide), h.2.1 4 (by decide), h.2.2.1,
    h.2.2.2 1 (by decide), h.2.2.2 2 (by decide), h.2.2.2 4 (by decide)⟩

/-! ## Claim C9: the execution schema never manages batches itself -/

theorem logExtendsNC_refl (l : List WOp) : logExtendsNC l l :=
  ⟨[], by simp, by simp⟩

theorem logExtendsNC_trans {a b c : List WOp} (h1 : logExtendsNC a b)
    (h2 : logExtendsNC b c) : logExtendsNC a c := by
  rcases h1 with ⟨d1, rfl, hd1⟩
  rcases h2 with ⟨d2, rfl, hd2⟩
  refine ⟨d1 ++ d2, by simp, ?_⟩
  intro w hw
  rcases List.mem_append.mp hw with h | h
  · exact hd1 w h
  · exact hd2 w h

theorem logExtendsNC_snoc (l : List WOp) (w : WOp) (h : w.isBatchControl = false) :
    logExtendsNC l (l ++ [w]) :=
  ⟨[w], rfl, by simpa⟩

theorem insertTransitionE_logNC (s : ExecutionState) (t : Transition) :
    logExtendsNC s.log (s.insertTransitionE t).1.log := by
  unfold ExecutionState.insertTransitionE TransitionStoreState.insertT
  by_cases h : t.tid ∈ s.transitionStore.failInsert
  · simp only [h, if_true]
    exact logExtendsNC_refl _
  · simp only [h, if_false]
    exact logExtendsNC_snoc _ _ rfl

theorem insertTransitionsLoop_logNC (txId : Nat) (ts : List Transition) :
    ∀ s : ExecutionState,
      logExtendsNC s.log (ExecutionState.insertTransitionsLoop txId ts s).1.log := by
  induction ts with
  | nil => intro s; exact logExtendsNC_refl _
  | cons t rest ih =>
    intro s
    simp only [ExecutionState.insertTransitionsLoop]
    rcases h : (s.insertReverseIdE t.tid txId).insertTransitionE t with ⟨s2, r⟩
    have e1 : logExtendsNC s.log (s.insertReverseIdE t.tid txId).log :=
      logExtendsNC_snoc _ _ rfl
    have e2 : logExtendsNC (s.insertReverseIdE t.tid txId).log s2.log := by
      have he := insertTransitionE_logNC (s.insertReverseIdE t.tid txId) t
      rw [h] at he
      exact he
    cases r with
    | ok u => exact logExtendsNC_trans (logExtendsNC_trans e1 e2) (ih s2)
    | error err => exact logExtendsNC_trans e1 e2

theorem removeTransitionsLoop_logNC (tids : List Nat) :
    ∀ s : ExecutionState,
      logExtendsNC s.log (ExecutionState.removeTransitionsLoop tids s).log := by
  induction tids with
  | nil => intro s; exact logExtendsNC_refl _
  | cons k rest ih =>
    intro s
    simp only [ExecutionState.removeTransitionsLoop]
    have e0 : logExtendsNC s.log ((s.removeReverseIdE k).removeTransitionE k).log :=
      ⟨[WOp.execReverseId k none, WOp.transition k none],
        by simp [ExecutionState.removeReverseIdE, ExecutionState.removeTransitionE],
        by simp [WOp.isBatchControl]⟩
    exact logExtendsNC_trans e0 (ih _)

theorem execution_insert_fail_char (s : ExecutionState) (txId ed : Nat)
    (ts1 : List Transition) (t0 : Transition) (ts2 : List Transition)
    (optFee : Option Transition)
    (hb1 : s.idMap.batch = none) (hb2 : s.reverseIdMap.batch = none)
    (hb3 : s.editionMap.batch = none) (hb4 : s.transitionStore.store.batch = none)
    (hf1 : ∀ u ∈ ts1, u.tid ∉ s.transitionStore.failInsert)
    (ht0 : t0.tid ∈ s.transitionStore.failInsert) :
    s.insert (.execute txId ⟨ed, ts1 ++ t0 :: ts2⟩ optFee) =
      (⟨⟨insertEntry s.idMap.confirmed txId
          ((ts1 ++ t0 :: ts2).map (fun t => t.tid), optFee.map (fun t => t.tid)), none⟩,
        ⟨insertEntriesList s.reverseIdMap.confirmed
          ((ts1 ++ [t0]).map (fun t => (t.tid, txId))), none⟩,
        ⟨insertEntry s.editionMap.confirmed txId ed, none⟩,
        ⟨⟨insertEntriesList s.transitionStore.store.confirmed
          (ts1.map (fun t => (t.tid, t))), none⟩, s.transitionStore.failInsert⟩,
        s.log ++
          [WOp.execId txId (some ((ts1 ++ t0 :: ts2).map (fun t => t.tid),
            optFee.map (fun t => t.tid))),
           WOp.execEdition txId (some ed)] ++
          ts1.flatMap (fun t =>
            [WOp.execReverseId t.tid (some txId), WOp.transition t.tid (some t)]) ++
          [WOp.execReverseId t0.tid (some txId)]⟩,
        .error .backendFault) := by
  obtain ⟨⟨ic, ib⟩, ⟨rc, rb⟩, ⟨ec, eb⟩, ⟨⟨tc, tb⟩, tfail⟩, lg⟩ := s
  simp only at hb1 hb2 hb3 hb4 hf1 ht0
  subst hb1; subst hb2; subst hb3; subst hb4
  simp only [ExecutionState.insert, ExecutionState.insertIdE,
    ExecutionState.insertEditionE, Store.insert]
  rw [insertTransitionsLoop_fail_char txId ts1 t0 ts2 _ _ _ _ _ _ hf1 ht0]
  simp

/-- C9: the execution schema's insert and remove record only map writes -
never a `start_atomic`, `atomic_checkpoint`, `atomic_rewind`,
`abort_atomic` or `finish_atomic` call - so their writes land in whatever
batch the caller may have open; consequently, with no batch open, when an
insert fails partway at a failing transition-store write, the writes
already made (the ID tuple, the edition, and the reverse entries staged up
to and including the failing transition) remain in place. -/
theorem claim_C9_execution_no_own_batch :
    (∀ (s : ExecutionState) (tx : Transaction),
      logExtendsNC s.log (s.insert tx).1.log) ∧
    (∀ (s : ExecutionState) (txId : Nat),
      logExtendsNC s.log (s.remove txId).1.log) ∧
    (∀ (s : ExecutionState) (txId ed : Nat) (ts1 : List Transition) (t0 : Transition)
      (ts2 : List Transition) (optFee : Option Transition),
      s.idMap.batch = none → s.reverseIdMap.batch = none → s.editionMap.batch = none →
      s.transitionStore.store.batch = none →
      (∀ u ∈ ts1, u.tid ∉ s.transitionStore.failInsert) →
      t0.tid ∈ s.transitionStore.failInsert →
      (s.insert (.execute txId ⟨ed, ts1 ++ t0 :: ts2⟩ optFee)).2 = .error .backendFault ∧
      (s.insert (.execute txId ⟨ed, ts1 ++ t0 :: ts2⟩ optFee)).1.idMap.getConfirmed txId =
        some ((ts1 ++ t0 :: ts2).map (fun t => t.tid), optFee.map (fun t => t.tid)) ∧
      (s.insert (.execute txId ⟨ed, ts1 ++ t0 :: ts2⟩ optFee)).1.editionMap.getConfirmed
        txId = some ed ∧
      (∀ u ∈ ts1 ++ [t0],
        (s.insert (.execute txId ⟨ed, ts1 ++ t0 :: ts2⟩ optFee)).1.reverseIdMap.getConfirmed
          u.tid = some txId)) := by
  refine ⟨?_, ?_, ?_⟩
  · intro s tx
    cases tx with
    | deploy a b c d => exact logExtendsNC_refl _
    | execute txId e optFee =>
      simp only [ExecutionState.insert]
      rcases h : ExecutionState.insertTransitionsLoop txId e.transitions
        ((s.insertIdE txId (e.transitions.map (fun t => t.tid),
          optFee.map (fun t => t.tid))).insertEditionE txId e.edition) with ⟨s3, r⟩
      have e0 : logExtendsNC s.log
          ((s.insertIdE txId (e.transitions.map (fun t => t.tid),
            optFee.map (fun t => t.tid))).insertEditionE txId e.edition).log :=
        ⟨[WOp.execId txId (some (e.transitions.map (fun t => t.tid),
            optFee.map (fun t => t.tid))), WOp.execEdition txId (some e.edition)],
          by simp [ExecutionState.insertIdE, ExecutionState.insertEditionE],
          by simp [WOp.isBatchControl]⟩
      have e1 : logExtendsNC s.log s3.log := by
        have hl := insertTransitionsLoop_logNC txId e.transitions
          ((s.insertIdE txId (e.transitions.map (fun t => t.tid),
            optFee.map (fun t => t.tid))).insertEditionE txId e.edition)
        rw [h] at hl
        exact logExtendsNC_trans e0 hl
      rw [h]
      cases r with
      | error err => exact e1
      | ok u =>
        cases optFee with
        | none => exact e1
        | some feeT =>
          refine logExtendsNC_trans e1 ?_
          have e2 : logExtendsNC s3.log (s3.insertReverseIdE feeT.tid txId).log :=
            ⟨[WOp.execReverseId feeT.tid (some txId)],
              by simp [ExecutionState.insertReverseIdE],
              by simp [WOp.isBatchControl]⟩
          exact logExtendsNC_trans e2
            (insertTransitionE_logNC (s3.insertReverseIdE feeT.tid txId) feeT)
  · intro s txId
    unfold ExecutionState.remove
    cases h : s.idMap.getConfirmed txId with
    | none => exact logExtendsNC_refl _
    | some v =>
      rcases v with ⟨tids, optFeeId⟩
      have e0 : logExtendsNC s.log ((s.removeIdE txId).removeEditionE txId).log :=
        ⟨[WOp.execId txId none, WOp.execEdition txId none],
          by simp [ExecutionState.removeIdE, ExecutionState.removeEditionE],
          by simp [WOp.isBatchControl]⟩
      have e1 : logExtendsNC s.log
          (ExecutionState.removeTransitionsLoop tids
            ((s.removeIdE txId).removeEditionE txId)).log :=
        logExtendsNC_trans e0 (removeTransitionsLoop_logNC tids _)
      cases optFeeId with
      | none => exact e1
      | some feeId =>
        refine logExtendsNC_trans e1 ?_
        have e2 : logExtendsNC
            (ExecutionState.removeTransitionsLoop tids
              ((s.removeIdE txId).removeEditionE txId)).log
            (((ExecutionState.removeTransitionsLoop tids
              ((s.removeIdE txId).removeEditionE txId)).removeReverseIdE
                feeId).removeTransitionE feeId).log :=
          ⟨[WOp.execReverseId feeId none, WOp.transition feeId none],
            by simp [ExecutionState.removeReverseIdE, ExecutionState.removeTransitionE],
            by simp [WOp.isBatchControl]⟩
        exact e2
  · intro s txId ed ts1 t0 ts2 optFee hb1 hb2 hb3 hb4 hf1 ht0
    rw [execution_insert_fail_char s txId ed ts1 t0 ts2 optFee hb1 hb2 hb3 hb4 hf1 ht0]
    refine ⟨rfl, ?_, ?_, fun u hu => ?_⟩
    · simp [Store.getConfirmed, lookupEntries_insertEntry]
    · simp [Store.getConfirmed, lookupEntries_insertEntry]
    · simp only [Store.getConfirmed]
      rw [lookup_insertEntriesList_const]
      rw [if_pos (List.mem_map_of_mem (fun t => t.tid) hu)]

/-- Witness for C9: the injected-fault store `execFailW` rejects transition
5, so inserting `txExecFailW` fails partway while the ID tuple, edition and
the first two reverse entries remain; the log parts are exercised at the
same inputs. -/
theorem claim_C9_witness :
    logExtendsNC execFailW.log (execFailW.insert txExecFailW).1.log ∧
    logExtendsNC execFailW.log (execFailW.remove 0).1.log ∧
    (execFailW.insert txExecFailW).2 = .error .backendFault ∧
    (execFailW.insert txExecFailW).1.idMap.getConfirmed txExecFailW.id =
      some ([4, 5, 6], none) ∧
    (execFailW.insert txExecFailW).1.editionMap.getConfirmed txExecFailW.id = some 0 ∧
    (execFailW.insert txExecFailW).1.reverseIdMap.getConfirmed 4 =
      some txExecFailW.id ∧
    (execFailW.insert txExecFailW).1.reverseIdMap.getConfirmed 5 =
      some txExecFailW.id := by
  have h3 := claim_C9_execution_no_own_batch.2.2 execFailW
    (executeTxId ⟨0, [⟨4, 0⟩, ⟨5, 0⟩, ⟨6, 0⟩]⟩ none) 0 [⟨4, 0⟩] ⟨5, 0⟩ [⟨6, 0⟩] none
    rfl rfl rfl rfl (by decide) (by decide)
  have h1 := claim_C9_execution_no_own_batch.1 execFailW txExecFailW
  have h2 := claim_C9_execution_no_own_batch.2.1 execFailW 0
  exact ⟨h1, h2, h3.1, h3.2.1, h3.2.2.1,
    h3.2.2.2 ⟨4, 0⟩ (by decide), h3.2.2.2 ⟨5, 0⟩ (by decide)⟩

/-! ## Claim C4: kind-tag atomicity (refuted and amended) -/

/-- Counterexample to C4 as stated: inserting the malformed deployment
`txBadW` into the empty top-level store returns an error, yet its kind tag
remains (the claim demands no tag remains); then removing ID 9 returns an
error, yet the kind tag has been deleted (the claim demands it be
unchanged). -/
theorem claim_C4_counterexample :
    (TransactionState.empty.insert txBadW).2 = .error .malformedInput ∧
    (TransactionState.empty.insert txBadW).1.kindMap.getConfirmed 9 =
      some TxKind.deploy ∧
    ¬((TransactionState.empty.insert txBadW).1.kindMap.getConfirmed 9 = none) ∧
    ((TransactionState.empty.insert txBadW).1.remove 9).2 = .error .notFound ∧
    ((TransactionState.empty.insert txBadW).1.remove 9).1.kindMap.getConfirmed 9 = none ∧
    ¬(((TransactionState.empty.insert txBadW).1.remove 9).1.kindMap.getConfirmed 9 =
      (TransactionState.empty.insert txBadW).1.kindMap.getConfirmed 9) := by
  refine ⟨rfl, rfl, ?_, rfl, rfl, ?_⟩ <;> decide

/-- C4 amended: the top-level insert always writes the kind tag before
forwarding, so the tag is present afterwards even when the forwarded
sub-insert fails; and the top-level remove deletes the kind tag before
forwarding, so the tag is gone afterwards even when the forwarded
sub-remove fails. The claimed tag/sub-schema consistency therefore holds
only on paths where the forwarded operations succeed. -/
theorem claim_C4_kind_tag_amended :
    (∀ (s : TransactionState) (tx : Transaction), s.kindMap.batch = none →
      (s.insert tx).1.kindMap.getConfirmed tx.id = some tx.kind) ∧
    (∀ (s : TransactionState) (t : Nat) (k : TxKind), s.kindMap.batch = none →
      s.kindMap.getConfirmed t = some k →
      (s.remove t).1.kindMap.getConfirmed t = none) := by
  constructor
  · intro s tx hb
    cases tx with
    | deploy txId owner d fee =>
      simp only [TransactionState.insert]
      rcases h : ({ s with
          kindMap := s.kindMap.insert (Transaction.deploy txId owner d fee).id
            TxKind.deploy } : TransactionState).deployment.insert
          (Transaction.deploy txId owner d fee) with ⟨dd, rr⟩
      simp [Transaction.id, Transaction.kind, Store.insert, hb, Store.getConfirmed,
        lookupEntries_insertEntry]
    | execute txId e optFee =>
      simp only [TransactionState.insert]
      rcases h : ({ s with
          kindMap := s.kindMap.insert (Transaction.execute txId e optFee).id
            TxKind.execute } : TransactionState).execution.insert
          (Transaction.execute txId e optFee) with ⟨ee, rr⟩
      simp [Transaction.id, Transaction.kind, Store.insert, hb, Store.getConfirmed,
        lookupEntries_insertEntry]
  · intro s t k hb hk
    simp only [TransactionState.remove, hk]
    cases k with
    | deploy =>
      rcases h : ({ s with kindMap := s.kindMap.remove t } :
          TransactionState).deployment.remove t with ⟨dd, rr⟩
      simp [Store.remove, hb, Store.getConfirmed, lookupEntries_eraseEntry]
    | execute =>
      rcases h : ({ s with kindMap := s.kindMap.remove t } :
          TransactionState).execution.remove t with ⟨ee, rr⟩
      simp [Store.remove, hb, Store.getConfirmed, lookupEntries_eraseEntry]

/-- Witness for C4's amended claim: the dangling-tag scenario on the empty
store and the tag-clearing scenario on the store `kindOnlyW` that holds
only a deploy tag for ID 9. -/
theorem claim_C4_witness :
    TransactionState.empty.kindMap.batch = none ∧
    (TransactionState.empty.insert txBadW).1.kindMap.getConfirmed txBadW.id =
      some txBadW.kind ∧
    kindOnlyW.kindMap.batch = none ∧
    kindOnlyW.kindMap.getConfirmed 9 = some TxKind.deploy ∧
    (kindOnlyW.remove 9).1.kindMap.getConfirmed 9 = none :=
  ⟨rfl, claim_C4_kind_tag_amended.1 TransactionState.empty txBadW rfl, rfl, rfl,
    claim_C4_kind_tag_amended.2 kindOnlyW 9 TxKind.deploy rfl rfl⟩

/-! ## Claim C1: the top-level insert-get-remove round trip -/

theorem collectVerifyingKeys_of_lookup (s : DeploymentState) (pid ed : Nat)
    (vks : List (Nat × Nat × Nat))
    (h : ∀ q ∈ vks,
      s.verifyingKeyMap.getConfirmed (pid, q.1, ed) = some q.2.1 ∧
      s.certificateMap.getConfirmed (pid, q.1, ed) = some q.2.2) :
    s.collectVerifyingKeys pid ed (vks.map (fun q => q.1)) = .ok vks := by
  induction vks with
  | nil => rfl
  | cons q rest ih =>
    have hq := h q (List.mem_cons_self q rest)
    simp only [List.map_cons, DeploymentState.collectVerifyingKeys, hq.1, hq.2]
    rw [ih (fun p hp => h p (List.mem_cons_of_mem q hp))]

theorem collectTransitions_of_lookup (s : ExecutionState) (ts : List Transition)
    (h : ∀ t ∈ ts, s.transitionStore.getTransition t.tid = some t) :
    s.collectTransitions (ts.map (fun t => t.tid)) = .ok ts := by
  induction ts with
  | nil => rfl
  | cons t rest ih =>
    have ht := h t (List.mem_cons_self t rest)
    simp only [List.map_cons, ExecutionState.collectTransitions, ht]
    rw [ih (fun u hu => h u (List.mem_cons_of_mem t hu))]

theorem transaction_insert_deploy_char (s : TransactionState) (txId owner : Nat)
    (d : Deployment) (fee : Fee) :
    s.insert (.deploy txId owner d fee) =
      ({ s with
         kindMap := s.kindMap.insert txId TxKind.deploy,
         deployment := (s.deployment.insert (.deploy txId owner d fee)).1 },
        (s.deployment.insert (.deploy txId owner d fee)).2) := by
  simp only [TransactionState.insert, Transaction.id]

theorem transaction_insert_execute_char (s : TransactionState) (txId : Nat)
    (e : Execution) (optFee : Option Transition) :
    s.insert (.execute txId e optFee) =
      ({ s with
         kindMap := s.kindMap.insert txId TxKind.execute,
         execution := (s.execution.insert (.execute txId e optFee)).1 },
        (s.execution.insert (.execute txId e optFee)).2) := by
  simp only [TransactionState.insert, Transaction.id]

theorem transaction_remove_deploy_char (s : TransactionState) (t : Nat)
    (h : s.kindMap.getConfirmed t = some TxKind.deploy) :
    s.remove t =
      ({ s with
         kindMap := s.kindMap.remove t,
         deployment := (s.deployment.remove t).1 },
        (s.deployment.remove t).2) := by
  simp only [TransactionState.remove, h]

theorem transaction_remove_execute_char (s : TransactionState) (t : Nat)
    (h : s.kindMap.getConfirmed t = some TxKind.execute) :
    s.remove t =
      ({ s with
         kindMap := s.kindMap.remove t,
         execution := (s.execution.remove t).1 },
        (s.execution.remove t).2) := by
  simp only [TransactionState.remove, h]

theorem deployment_empty_insert_facts (owner : Nat) (d : Deployment) (fee : Fee)
    (hord : d.checkIsOrdered = true) (hnd : d.program.functions.Nodup) :
    (DeploymentState.empty.insert
      (.deploy (deployTxId owner d fee) owner d fee)).2 = .ok () ∧
    (DeploymentState.empty.insert
      (.deploy (deployTxId owner d fee) owner d fee)).1.getTransaction
        (deployTxId owner d fee) =
      .ok (some (.deploy (deployTxId owner d fee) owner d fee)) ∧
    ((DeploymentState.empty.insert
      (.deploy (deployTxId owner d fee) owner d fee)).1.remove
        (deployTxId owner d fee)).2 = .ok () := by
  have hfee : fee.transition.tid ∉ DeploymentState.empty.transitionStore.failInsert :=
    List.not_mem_nil _
  have hfst : d.verifyingKeys.map (fun q => q.1) = d.program.functions := by
    have hh := hord
    unfold Deployment.checkIsOrdered at hh
    exact of_decide_eq_true hh
  have hfstnd : (d.verifyingKeys.map (fun q => q.1)).Nodup := by
    rw [hfst]
    exact hnd
  have hinj : ∀ q1 ∈ d.verifyingKeys, ∀ q2 ∈ d.verifyingKeys,
      ((d.program.pid, q1.1, d.edition) : Nat × Nat × Nat) =
        (d.program.pid, q2.1, d.edition) → q1 = q2 := by
    intro q1 h1 q2 h2 hk
    have h11 : q1.1 = q2.1 := by
      have hc := congrArg (fun p : Nat × Nat × Nat => p.2.1) hk
      simpa using hc
    exact List.inj_on_of_nodup_map hfstnd h1 h2 h11
  set S1 := (DeploymentState.empty.insert
    (.deploy (deployTxId owner d fee) owner d fee)).1 with hS1def
  have hS1 : S1 =
      { idMap := ⟨insertEntry DeploymentState.empty.idMap.confirmed
          (deployTxId owner d fee) d.program.pid, none⟩,
        editionMap := ⟨insertEntry DeploymentState.empty.editionMap.confirmed
          d.program.pid d.edition, none⟩,
        reverseIdMap := ⟨insertEntry DeploymentState.empty.reverseIdMap.confirmed
          (d.program.pid, d.edition) (deployTxId owner d fee), none⟩,
        ownerMap := ⟨insertEntry DeploymentState.empty.ownerMap.confirmed
          (d.program.pid, d.edition) owner, none⟩,
        programMap := ⟨insertEntry DeploymentState.empty.programMap.confirmed
          (d.program.pid, d.edition) d.program, none⟩,
        verifyingKeyMap := ⟨insertEntriesList
          DeploymentState.empty.verifyingKeyMap.confirmed
          (d.verifyingKeys.map (fun q => ((d.program.pid, q.1, d.edition), q.2.1))),
          none⟩,
        certificateMap := ⟨insertEntriesList
          DeploymentState.empty.certificateMap.confirmed
          (d.verifyingKeys.map (fun q => ((d.program.pid, q.1, d.edition), q.2.2))),
          none⟩,
        feeMap := ⟨insertEntry DeploymentState.empty.feeMap.confirmed
          (deployTxId owner d fee)
          (fee.transition.tid, fee.globalStateRoot, fee.inclusionProof), none⟩,
        reverseFeeMap := ⟨insertEntry DeploymentState.empty.reverseFeeMap.confirmed
          fee.transition.tid (deployTxId owner d fee), none⟩,
        transitionStore := ⟨⟨insertEntry
          DeploymentState.empty.transitionStore.store.confirmed fee.transition.tid
          fee.transition, none⟩, DeploymentState.empty.transitionStore.failInsert⟩,
        log := DeploymentState.empty.log ++
          depInsertLog (deployTxId owner d fee) owner d fee } := by
    rw [hS1def, deployment_insert_ok_char DeploymentState.empty
      (deployTxId owner d fee) owner d fee rfl hord hfee]
  have hok : (DeploymentState.empty.insert
      (.deploy (deployTxId owner d fee) owner d fee)).2 = .ok () := by
    rw [deployment_insert_ok_char DeploymentState.empty
      (deployTxId owner d fee) owner d fee rfl hord hfee]
  have hpid : S1.getProgramId (deployTxId owner d fee) = some d.program.pid := by
    rw [hS1]
    simp [DeploymentState.getProgramId, Store.getConfirmed, lookupEntries_insertEntry]
  have hed : S1.getEditionP d.program.pid = some d.edition := by
    rw [hS1]
    simp [DeploymentState.getEditionP, Store.getConfirmed, lookupEntries_insertEntry]
  have hprog : S1.programMap.getConfirmed (d.program.pid, d.edition) = some d.program := by
    rw [hS1]
    simp [Store.getConfirmed, lookupEntries_insertEntry]
  have hfeelk : S1.feeMap.getConfirmed (deployTxId owner d fee) =
      some (fee.transition.tid, fee.globalStateRoot, fee.inclusionProof) := by
    rw [hS1]
    simp [Store.getConfirmed, lookupEntries_insertEntry]
  have hvkc : ∀ q ∈ d.verifyingKeys,
      S1.verifyingKeyMap.getConfirmed (d.program.pid, q.1, d.edition) = some q.2.1 ∧
      S1.certificateMap.getConfirmed (d.program.pid, q.1, d.edition) = some q.2.2 := by
    intro q hq
    rw [hS1]
    constructor
    · exact lookup_insertEntriesList_mem_inj _ d.verifyingKeys
        (fun q => (d.program.pid, q.1, d.edition)) (fun q => q.2.1) q hq hinj
    · exact lookup_insertEntriesList_mem_inj _ d.verifyingKeys
        (fun q => (d.program.pid, q.1, d.edition)) (fun q => q.2.2) q hq hinj
  have hcol : S1.collectVerifyingKeys d.program.pid d.edition d.program.functions =
      .ok d.verifyingKeys := by
    rw [← hfst]
    exact collectVerifyingKeys_of_lookup S1 _ _ _ hvkc
  have hgd : S1.getDeployment (deployTxId owner d fee) = .ok (some d) := by
    simp only [DeploymentState.getDeployment, hpid, hed, hprog, hcol]
  have hfeeg : S1.getFee (deployTxId owner d fee) = .ok (some fee) := by
    simp only [DeploymentState.getFee, hfeelk]
    rw [hS1]
    simp [TransitionStoreState.getTransition, Store.getConfirmed,
      lookupEntries_insertEntry]
  have hown : S1.getOwner d.program.pid = .ok (some owner) := by
    simp only [DeploymentState.getOwner, hed]
    rw [hS1]
    simp [Store.getConfirmed, lookupEntries_insertEntry]
  have hget : S1.getTransaction (deployTxId owner d fee) =
      .ok (some (.deploy (deployTxId owner d fee) owner d fee)) := by
    simp only [DeploymentState.getTransaction, hgd, hfeeg, hown]
    rw [if_pos (show deployTxId owner d fee =
      (Transaction.fromDeployment owner d fee).id from rfl)]
    rfl
  have hna2 : S1.isAtomicInProgressD = false := by
    rw [hS1]
    rfl
  have hrem := deployment_remove_ok_char S1 (deployTxId owner d fee) d.program.pid
    d.edition d.program fee.transition.tid fee.globalStateRoot fee.inclusionProof
    hna2 hpid hed hprog hfeelk
  refine ⟨hok, hget, ?_⟩
  rw [hrem]

theorem execution_empty_insert_facts (e : Execution) (optFee : Option Transition)
    (hnd : ((e.transitions ++ optFee.toList).map (fun t => t.tid)).Nodup) :
    (ExecutionState.empty.insert
      (.execute (executeTxId e optFee) e optFee)).2 = .ok () ∧
    (ExecutionState.empty.insert
      (.execute (executeTxId e optFee) e optFee)).1.getTransaction
        (executeTxId e optFee) =
      .ok (some (.execute (executeTxId e optFee) e optFee)) ∧
    ((ExecutionState.empty.insert
      (.execute (executeTxId e optFee) e optFee)).1.remove
        (executeTxId e optFee)).2 = .ok () := by
  have hf : ∀ t ∈ e.transitions ++ optFee.toList,
      t.tid ∉ ExecutionState.empty.transitionStore.failInsert :=
    fun t _ => List.not_mem_nil _
  have hinj : ∀ t1 ∈ e.transitions ++ optFee.toList,
      ∀ t2 ∈ e.transitions ++ optFee.toList, t1.tid = t2.tid → t1 = t2 := by
    intro t1 h1 t2 h2 hk
    exact List.inj_on_of_nodup_map hnd h1 h2 hk
  set S1 := (ExecutionState.empty.insert
    (.execute (executeTxId e optFee) e optFee)).1 with hS1def
  have hS1 : S1 =
      ⟨⟨insertEntry ExecutionState.empty.idMap.confirmed (executeTxId e optFee)
          (e.transitions.map (fun t => t.tid), optFee.map (fun t => t.tid)), none⟩,
        ⟨insertEntriesList ExecutionState.empty.reverseIdMap.confirmed
          ((e.transitions ++ optFee.toList).map
            (fun t => (t.tid, executeTxId e optFee))), none⟩,
        ⟨insertEntry ExecutionState.empty.editionMap.confirmed (executeTxId e optFee)
          e.edition, none⟩,
        ⟨⟨insertEntriesList ExecutionState.empty.transitionStore.store.confirmed
          ((e.transitions ++ optFee.toList).map (fun t => (t.tid, t))), none⟩,
          ExecutionState.empty.transitionStore.failInsert⟩,
        ExecutionState.empty.log ++
          [WOp.execId (executeTxId e optFee)
            (some (e.transitions.map (fun t => t.tid), optFee.map (fun t => t.tid))),
           WOp.execEdition (executeTxId e optFee) (some e.edition)] ++
          (e.transitions ++ optFee.toList).flatMap (fun t =>
            [WOp.execReverseId t.tid (some (executeTxId e optFee)),
             WOp.transition t.tid (some t)])⟩ := by
    rw [hS1def, execution_insert_ok_char ExecutionState.empty (executeTxId e optFee)
      e optFee rfl rfl rfl rfl hf]
  have hok : (ExecutionState.empty.insert
      (.execute (executeTxId e optFee) e optFee)).2 = .ok () := by
    rw [execution_insert_ok_char ExecutionState.empty (executeTxId e optFee)
      e optFee rfl rfl rfl rfl hf]
  have hedl : S1.editionMap.getConfirmed (executeTxId e optFee) = some e.edition := by
    rw [hS1]
    simp [Store.getConfirmed, lookupEntries_insertEntry]
  have hidl : S1.idMap.getConfirmed (executeTxId e optFee) =
      some (e.transitions.map (fun t => t.tid), optFee.map (fun t => t.tid)) := by
    rw [hS1]
    simp [Store.getConfirmed, lookupEntries_insertEntry]
  have htr : ∀ t ∈ e.transitions ++ optFee.toList,
      S1.transitionStore.getTransition t.tid = some t := by
    intro t ht
    rw [hS1]
    exact lookup_insertEntriesList_mem_inj _ (e.transitions ++ optFee.toList)
      (fun t => t.tid) (fun t => t) t ht hinj
  have hcol : S1.collectTransitions (e.transitions.map (fun t => t.tid)) =
      .ok e.transitions :=
    collectTransitions_of_lookup S1 e.transitions
      (fun t ht => htr t (List.mem_append_left _ ht))
  have hget : S1.getTransaction (executeTxId e optFee) =
      .ok (some (.execute (executeTxId e optFee) e optFee)) := by
    cases optFee with
    | none =>
      simp only [ExecutionState.getTransaction, hedl, hidl, Option.map_none', hcol]
      rw [if_pos (show executeTxId e none =
        (Transaction.fromExecution ⟨e.edition, e.transitions⟩ none).id from rfl)]
      rfl
    | some feeT =>
      have hft : S1.transitionStore.getTransition feeT.tid = some feeT :=
        htr feeT (List.mem_append_right _ (by simp))
      simp only [ExecutionState.getTransaction, hedl, hidl, Option.map_some', hcol, hft]
      rw [if_pos (show executeTxId e (some feeT) =
        (Transaction.fromExecution ⟨e.edition, e.transitions⟩ (some feeT)).id from rfl)]
      rfl
  have hrem := execution_remove_ok_char S1 (executeTxId e optFee)
    (e.transitions.map (fun t => t.tid)) (optFee.map (fun t => t.tid))
    (by rw [hS1]) (by rw [hS1]) (by rw [hS1]) (by rw [hS1]) hidl
  refine ⟨hok, hget, ?_⟩
  rw [hrem]

/-- Counterexample to C1 as stated: on the fresh top-level store, after
inserting the valid execute transaction `txExecW` and removing it (both
succeeding), `get_transaction` returns the failed-to-get-the-type error,
not `Ok(None)` as the claim demands. -/
theorem claim_C1_counterexample :
    Transaction.valid txExecW ∧
    (TransactionState.empty.insert txExecW).2 = .ok () ∧
    ((TransactionState.empty.insert txExecW).1.remove txExecW.id).2 = .ok () ∧
    ((TransactionState.empty.insert txExecW).1.remove txExecW.id).1.getTransaction
      txExecW.id = .error .notFound ∧
    ¬(((TransactionState.empty.insert txExecW).1.remove txExecW.id).1.getTransaction
      txExecW.id = .ok none) := by
  refine ⟨by decide, rfl, rfl, rfl, ?_⟩
  intro hcontr
  have h4 : ((TransactionState.empty.insert txExecW).1.remove
      txExecW.id).1.getTransaction txExecW.id = Except.error Err.notFound := rfl
  rw [h4] at hcontr
  exact Except.noConfusion hcontr

/-- C1 (amended): for every valid transaction inserted into the fresh
top-level store via `TransactionStorage::insert`, the insert succeeds and
`get_transaction(tx.id)` returns `Some(tx')` with `tx'.id() == tx.id()`;
after `TransactionStorage::remove(tx.id)` succeeds, however,
`get_transaction(tx.id)` returns the failed-to-get-the-type error rather
than `Ok(None)`, because remove deletes the kind tag and `get_transaction`
bails when the tag is missing. -/
theorem claim_C1_insert_get_remove (tx : Transaction) (hval : tx.valid) :
    (TransactionState.empty.insert tx).2 = .ok () ∧
    (∃ tx', (TransactionState.empty.insert tx).1.getTransaction tx.id =
      .ok (some tx') ∧ tx'.id = tx.id) ∧
    ((TransactionState.empty.insert tx).1.remove tx.id).2 = .ok () ∧
    ((TransactionState.empty.insert tx).1.remove tx.id).1.getTransaction tx.id =
      .error .notFound := by
  cases tx with
  | deploy txId owner d fee =>
    obtain ⟨hid, hord, hnd⟩ := hval
    subst hid
    obtain ⟨hok, hget, hrem⟩ := deployment_empty_insert_facts owner d fee hord hnd
    rw [Transaction.id, transaction_insert_deploy_char]
    dsimp only [TransactionState.empty]
    have hk : ((Store.empty : Store Nat TxKind).insert (deployTxId owner d fee)
        TxKind.deploy).getConfirmed (deployTxId owner d fee) = some TxKind.deploy := by
      simp [Store.empty, Store.insert, Store.getConfirmed, lookupEntries_insertEntry]
    refine ⟨hok, ⟨.deploy (deployTxId owner d fee) owner d fee, ?_, rfl⟩, ?_, ?_⟩
    · dsimp only []
      simp only [TransactionState.getTransaction, hk]
      exact hget
    · simp only [TransactionState.remove, hk]
      exact hrem
    · simp only [TransactionState.remove, hk]
      simp [TransactionState.getTransaction, Store.empty, Store.insert, Store.remove,
        Store.getConfirmed, lookupEntries_eraseEntry]
  | execute txId e optFee =>
    obtain ⟨hid, hnd⟩ := hval
    subst hid
    obtain ⟨hok, hget, hrem⟩ := execution_empty_insert_facts e optFee hnd
    rw [Transaction.id, transaction_insert_execute_char]
    dsimp only [TransactionState.empty]
    have hk : ((Store.empty : Store Nat TxKind).insert (executeTxId e optFee)
        TxKind.execute).getConfirmed (executeTxId e optFee) = some TxKind.execute := by
      simp [Store.empty, Store.insert, Store.getConfirmed, lookupEntries_insertEntry]
    refine ⟨hok, ⟨.execute (executeTxId e optFee) e optFee, ?_, rfl⟩, ?_, ?_⟩
    · dsimp only []
      simp only [TransactionState.getTransaction, hk]
      exact hget
    · simp only [TransactionState.remove, hk]
      exact hrem
    · simp only [TransactionState.remove, hk]
      simp [TransactionState.getTransaction, Store.empty, Store.insert, Store.remove,
        Store.getConfirmed, lookupEntries_eraseEntry]

/-- Witness for C1's amended claim at the valid deploy transaction
`txDeployW`. -/
theorem claim_C1_witness :
    Transaction.valid txDeployW ∧
    ((TransactionState.empty.insert txDeployW).2 = .ok () ∧
      (∃ tx', (TransactionState.empty.insert txDeployW).1.getTransaction txDeployW.id =
        .ok (some tx') ∧ tx'.id = txDeployW.id) ∧
      ((TransactionState.empty.insert txDeployW).1.remove txDeployW.id).2 = .ok () ∧
      ((TransactionState.empty.insert txDeployW).1.remove txDeployW.id).1.getTransaction
        txDeployW.id = .error .notFound) :=
  ⟨by decide, claim_C1_insert_get_remove txDeployW (by decide)⟩

end SnarkVM
